import Mathlib

/-!
broadcast-logger: delivery confirmation of a broadcast.

A shallow embedding of `cmd/server/main.go` and `pkg/types/types.go`.

* A Go `map[string]V` is a list of key/value pairs (`GoMap V`) read through
  `mapGet` and written through `mapSet`.  A `range` over a map visits its keys
  in an order Go leaves unspecified; every loop over a map therefore takes the
  order of the visit as an argument, and the theorems hold for every order
  that is a permutation of the keys.
* `time.Time` is the instant (nanoseconds since the epoch) together with the
  zone offset; `After` compares instants (one clock: the monotonic reading
  that `time.Now()` attaches is not told apart from the wall clock).
* `time.Time.Format(time.RFC3339)` and `uuid.UUID.String` are library
  functions, taken as parameters (`Lib`).
* The HTTP handlers hold `clientsLock` for their whole critical section, so a
  run of `handleBroadcast` is its initial snapshot, a finite sequence of
  events (sampling ticks, `handleRegister` calls, `handleReport` calls), and
  the deadline step.
-/

namespace BroadcastLogger

/-! ## Go maps -/

/-- Go `map[string]V`: key/value pairs. -/
abbrev GoMap (V : Type) := List (String × V)

/-- Go `v, ok := m[key]`. -/
def mapGet {V : Type} : GoMap V → String → Option V
  | [], _ => none
  | (k, v) :: m, key => if k = key then some v else mapGet m key

/-- Go `m[key] = val`. -/
def mapSet {V : Type} : GoMap V → String → V → GoMap V
  | [], key, val => [(key, val)]
  | (k, v) :: m, key, val =>
    if k = key then (k, val) :: m else (k, v) :: mapSet m key val

/-- The keys of a map, in the order of the underlying list. -/
def mapKeys {V : Type} (m : GoMap V) : List String := m.map Prod.fst

/-- Go `len(m)`. -/
def mapLen {V : Type} (m : GoMap V) : Nat := m.length

/-! ## pkg/types -/

/-- Go `time.Time`: the instant and the zone offset it is displayed in. -/
structure Time where
  unixNano : Int
  zone : Int
deriving DecidableEq, Repr

/-- Go `t.After(u)`: the instant of `t` is strictly after the instant of `u`. -/
def Time.After (t u : Time) : Bool := decide (u.unixNano < t.unixNano)

/-- Go `uuid.UUID`, a 128-bit value. -/
structure UUID where
  val : Nat
deriving DecidableEq, Repr

/-- Library functions the server calls. -/
structure Lib where
  /-- Go `time.Time.Format(time.RFC3339)` -/
  formatRFC3339 : Time → String
  /-- Go `uuid.UUID.String()` -/
  uuidString : UUID → String

/-- Go `types.BroadcastPacket`. -/
structure BroadcastPacket where
  ID : UUID
  Timestamp : Time
  Data : List Nat
deriving DecidableEq, Repr

/-- Go `types.Client`; a nil `Metadata` map is `none`. -/
structure Client where
  ID : String
  IP : String
  LastSeen : Time
  Connected : Bool
  Metadata : Option (GoMap String)
deriving DecidableEq, Repr

/-- Go `types.BroadcastReport`. -/
structure BroadcastReport where
  ClientID : String
  PacketID : UUID
  Timestamp : Time
deriving DecidableEq, Repr

/-! ## cmd/server -/

/-- The global `clients` map (the pointers are owned by the map alone). -/
abbrev Registry := GoMap Client

/-- Go `broadcastResult`. -/
structure broadcastResult where
  PacketID : UUID
  SentAt : Time
  ReceivedBy : GoMap String
  MissedBy : List String
  TotalClients : Nat
  Timeout : Int
deriving DecidableEq, Repr

/-- HTTP status written by a handler. -/
inductive HTTPStatus where
  | StatusOK
  | StatusBadRequest
  | StatusNotFound
deriving DecidableEq, Repr

/-- Go `handleRegister`: `body` is the decoded request (`none` when decoding
fails), `now` the value of `time.Now()`. -/
def handleRegister (body : Option Client) (now : Time) (clients : Registry) :
    HTTPStatus × Registry :=
  match body with
  | none => (HTTPStatus.StatusBadRequest, clients)
  | some client =>
    let client := { client with LastSeen := now }
    let client := { client with Connected := true }
    (HTTPStatus.StatusOK, mapSet clients client.ID client)

/-- Go `handleReport`: `body` is the decoded request (`none` when decoding
fails). -/
def handleReport (lib : Lib) (body : Option BroadcastReport) (clients : Registry) :
    HTTPStatus × Registry :=
  match body with
  | none => (HTTPStatus.StatusBadRequest, clients)
  | some report =>
    match mapGet clients report.ClientID with
    | some client =>
      let client := { client with LastSeen := report.Timestamp }
      let metadata : GoMap String :=
        match client.Metadata with
        | none => []
        | some m => m
      let client := { client with
        Metadata := some (mapSet metadata "last_packet_id" (lib.uuidString report.PacketID)) }
      (HTTPStatus.StatusOK, mapSet clients report.ClientID client)
    | none => (HTTPStatus.StatusNotFound, clients)

/-- The loop of `handleBroadcast` that lists the connected clients before
sending, one iteration: `acc` is `(connectedClients, result)`. -/
def snapshotBody (clients : Registry) (acc : GoMap Bool × broadcastResult) (id : String) :
    GoMap Bool × broadcastResult :=
  match mapGet clients id with
  | none => acc
  | some client =>
    if client.Connected then
      (mapSet acc.1 id true, { acc.2 with MissedBy := acc.2.MissedBy ++ [id] })
    else acc

/-- The result tracker and the snapshot of the connected clients taken by
`handleBroadcast` before sending; `order` is the order of `range clients`. -/
def snapshot (packet : BroadcastPacket) (timeout : Int) (order : List String)
    (clients : Registry) : GoMap Bool × broadcastResult :=
  let result : broadcastResult :=
    { PacketID := packet.ID, SentAt := packet.Timestamp, ReceivedBy := [],
      MissedBy := [], TotalClients := 0, Timeout := timeout }
  let acc := order.foldl (snapshotBody clients) ([], result)
  (acc.1, { acc.2 with TotalClients := mapLen acc.1 })

/-- Go `append(s[:i], s[i+1:]...)` at the first `i` with `s[i] == id`. -/
def removeMissed : List String → String → List String
  | [], _ => []
  | missedID :: rest, id =>
    if missedID = id then rest else missedID :: removeMissed rest id

/-- One iteration of the `case <-ticker.C` loop over `clients`. -/
def tickBody (lib : Lib) (packet : BroadcastPacket) (clients : Registry)
    (result : broadcastResult) (id : String) : broadcastResult :=
  match mapGet clients id with
  | none => result
  | some client =>
    if client.Connected && client.LastSeen.After packet.Timestamp then
      match mapGet result.ReceivedBy id with
      | none =>
        { result with
          ReceivedBy := mapSet result.ReceivedBy id (lib.formatRFC3339 client.LastSeen),
          MissedBy := removeMissed result.MissedBy id }
      | some _ => result
    else result

/-- The `case <-ticker.C` branch; `order` is the order of `range clients`. -/
def tick (lib : Lib) (packet : BroadcastPacket) (order : List String)
    (clients : Registry) (result : broadcastResult) : broadcastResult :=
  order.foldl (tickBody lib packet clients) result

/-- The first loop of the `case <-timeout` branch, one iteration. -/
def deadlineBody (result : broadcastResult) (id : String) : broadcastResult :=
  match mapGet result.ReceivedBy id with
  | none => { result with MissedBy := result.MissedBy ++ [id] }
  | some _ => result

/-- The first loop of the `case <-timeout` branch; `order` is the order of
`range connectedClients`. -/
def deadlineAppend (order : List String) (result : broadcastResult) : broadcastResult :=
  order.foldl deadlineBody result

/-- The loop that removes duplicates from `MissedBy`: `seen` and
`uniqueMissed` are the loop variables. -/
def uniqueLoop : GoMap Bool → List String → List String → List String
  | _, uniqueMissed, [] => uniqueMissed
  | seen, uniqueMissed, id :: rest =>
    if (mapGet seen id).getD false then uniqueLoop seen uniqueMissed rest
    else uniqueLoop (mapSet seen id true) (uniqueMissed ++ [id]) rest

/-- The `case <-timeout` branch: the result that is returned. -/
def deadline (order : List String) (result : broadcastResult) : broadcastResult :=
  let result := deadlineAppend order result
  { result with MissedBy := uniqueLoop [] [] result.MissedBy }

/-- What happens while `handleBroadcast` waits in its `select`. -/
inductive Event where
  /-- The ticker fires; `order` is the order in which `range clients` visits the keys -/
  | tick (order : List String)
  /-- Another request is served by `handleRegister` -/
  | register (body : Option Client) (now : Time)
  /-- Another request is served by `handleReport` -/
  | report (body : Option BroadcastReport)
deriving DecidableEq, Repr

/-- The registry and the result tracker while `handleBroadcast` waits. -/
structure RunState where
  clients : Registry
  result : broadcastResult
deriving DecidableEq, Repr

/-- One event of the wait. -/
def step (lib : Lib) (packet : BroadcastPacket) (s : RunState) : Event → RunState
  | Event.tick order => { s with result := tick lib packet order s.clients s.result }
  | Event.register body now => { s with clients := (handleRegister body now s.clients).2 }
  | Event.report body => { s with clients := (handleReport lib body s.clients).2 }

/-- The events of the wait, in sequence. -/
def runEvents (lib : Lib) (packet : BroadcastPacket) (s : RunState) (events : List Event) :
    RunState :=
  events.foldl (step lib packet) s

/-- The state in which `handleBroadcast` enters its `select` loop. -/
def start (packet : BroadcastPacket) (timeout : Int) (snapOrder : List String)
    (clients : Registry) : RunState :=
  { clients := clients, result := (snapshot packet timeout snapOrder clients).2 }

/-- Go `handleBroadcast` once the packet is sent: the snapshot of the
connected clients, the events up to the deadline, and the deadline step.
Returns the result written to the response. -/
def handleBroadcast (lib : Lib) (packet : BroadcastPacket) (timeout : Int)
    (snapOrder : List String) (events : List Event) (deadlineOrder : List String)
    (clients : Registry) : broadcastResult :=
  deadline deadlineOrder (runEvents lib packet (start packet timeout snapOrder clients) events).result

/-- The orders given for the `range clients` loops of the ticks are
permutations of the keys of the registry at that moment. -/
def validEvents (lib : Lib) : Registry → List Event → Bool
  | _, [] => true
  | clients, Event.tick order :: rest =>
    decide (order.Perm (mapKeys clients)) && validEvents lib clients rest
  | clients, Event.register body now :: rest =>
    validEvents lib (handleRegister body now clients).2 rest
  | clients, Event.report body :: rest =>
    validEvents lib (handleReport lib body clients).2 rest

/-- The id has a record with `Connected = true`. -/
def connectedAt (clients : Registry) (id : String) : Bool :=
  match mapGet clients id with
  | some client => client.Connected
  | none => false

/-- The number of records with `Connected = true`. -/
def countConnected (clients : Registry) : Nat :=
  (clients.filter (fun kv => kv.2.Connected)).length

/-- A run of `handleBroadcast`: the registry is a map (distinct keys) and
every `range` visits the keys of its map in some order. -/
def ValidRun (lib : Lib) (packet : BroadcastPacket) (timeout : Int)
    (snapOrder : List String) (events : List Event) (deadlineOrder : List String)
    (clients : Registry) : Prop :=
  (mapKeys clients).Nodup ∧ snapOrder.Perm (mapKeys clients) ∧
  validEvents lib clients events = true ∧
  deadlineOrder.Perm (mapKeys (snapshot packet timeout snapOrder clients).1)

/-! ## Notions used to state the properties -/

/-- The `LastSeen` a sampling tick would record for the id: the record is
connected and its `LastSeen` is strictly after the packet's `Timestamp`. -/
def ackTime (packet : BroadcastPacket) (clients : Registry) (id : String) : Option Time :=
  match mapGet clients id with
  | some client =>
    if client.Connected && client.LastSeen.After packet.Timestamp then some client.LastSeen
    else none
  | none => none

/-- The result tracker accounts for the universe `U`: `MissedBy` has no
duplicates and holds exactly the ids of `U` that are not keys of `ReceivedBy`. -/
def Tracked (U : String → Bool) (result : broadcastResult) : Prop :=
  result.MissedBy.Nodup ∧
  ∀ id, id ∈ result.MissedBy ↔ (U id = true ∧ mapGet result.ReceivedBy id = none)

/-- Every value of `ReceivedBy` is the formatting of a time strictly after
the packet's `Timestamp`. -/
def Stamped (lib : Lib) (packet : BroadcastPacket) (result : broadcastResult) : Prop :=
  ∀ id v, mapGet result.ReceivedBy id = some v →
    ∃ t : Time, t.After packet.Timestamp = true ∧ v = lib.formatRFC3339 t

/-- Go `client.Metadata[key]`, also on a nil map. -/
def metadataGet (client : Client) (key : String) : Option String :=
  match client.Metadata with
  | none => none
  | some m => mapGet m key

/-- The registry after one event (a tick only reads it). -/
def serve (lib : Lib) (clients : Registry) : Event → Registry
  | Event.tick _ => clients
  | Event.register body now => (handleRegister body now clients).2
  | Event.report body => (handleReport lib body clients).2

/-- The registry after a sequence of events. -/
def registryAfter (lib : Lib) (clients : Registry) (events : List Event) : Registry :=
  events.foldl (serve lib) clients

/-- The client id whose record a handler call writes, if it has one. -/
def Event.target : Event → Option String
  | Event.tick _ => none
  | Event.register body _ => body.map (fun c => c.ID)
  | Event.report body => body.map (fun r => r.ClientID)

/-- The event with the `PacketID` of its report blanked. -/
def Event.forgetPacketID : Event → Event
  | Event.report (some r) => Event.report (some { r with PacketID := { val := 0 } })
  | e => e

/-- Two registries with the same keys in the same places whose records agree
on `LastSeen` and `Connected`. -/
def RegSim (a b : Registry) : Prop :=
  List.Forall₂ (fun x y => x.1 = y.1 ∧ x.2.LastSeen = y.2.LastSeen ∧
    x.2.Connected = y.2.Connected) a b

/-- The registry and the result tracker of a run after the given events of
its wait. -/
def stateAfter (lib : Lib) (packet : BroadcastPacket) (timeout : Int)
    (snapOrder : List String) (clients : Registry) (events : List Event) : RunState :=
  runEvents lib packet (start packet timeout snapOrder clients) events

/-! ## Sample data -/

/-- Sample library functions: print the instant, print the value. -/
def sampleLib : Lib :=
  { formatRFC3339 := fun t => toString t.unixNano, uuidString := fun u => toString u.val }

/-- The instant `n`, in UTC. -/
def sampleTime (n : Int) : Time := { unixNano := n, zone := 0 }

/-- A packet sent at instant 10. -/
def samplePacket : BroadcastPacket :=
  { ID := { val := 1 }, Timestamp := sampleTime 10, Data := [] }

/-- A registered client. -/
def clientA : Client :=
  { ID := "a", IP := "10.0.0.1", LastSeen := sampleTime 0, Connected := true, Metadata := none }

/-- A second registered client. -/
def clientB : Client :=
  { ID := "b", IP := "10.0.0.2", LastSeen := sampleTime 3, Connected := true,
    Metadata := some [("rack", "r1")] }

/-- The body of a registration request of a client not yet known. -/
def clientZ : Client :=
  { ID := "z", IP := "10.0.0.9", LastSeen := sampleTime 0, Connected := false, Metadata := none }

/-- A registry with two connected clients. -/
def sampleRegistry : Registry := [("a", clientA), ("b", clientB)]

/-- What holds of the registry and the result tracker throughout the wait of
a run that took its snapshot on the registry `clients0`. -/
structure RunInv (lib : Lib) (packet : BroadcastPacket) (clients0 : Registry)
    (s : RunState) : Prop where
  keys : (mapKeys s.clients).Nodup
  connected : ∀ id, connectedAt clients0 id = true → connectedAt s.clients id = true
  tracked : Tracked (connectedAt clients0) s.result
  stamped : Stamped lib packet s.result
  total : s.result.TotalClients = countConnected clients0

/-! ## Lemmas on maps -/

theorem mapGet_mapSet_self {V : Type} (m : GoMap V) (k : String) (v : V) :
    mapGet (mapSet m k v) k = some v := by
  induction m with
  | nil => simp [mapSet, mapGet]
  | cons kv m ih =>
    obtain ⟨k0, v0⟩ := kv
    by_cases h : k0 = k
    · simp [mapSet, mapGet, h]
    · simp [mapSet, mapGet, h, ih]

theorem mapGet_mapSet_ne {V : Type} (m : GoMap V) (k k1 : String) (v : V) (hne : k ≠ k1) :
    mapGet (mapSet m k v) k1 = mapGet m k1 := by
  induction m with
  | nil => simp [mapSet, mapGet, hne]
  | cons kv m ih =>
    obtain ⟨k0, v0⟩ := kv
    by_cases h : k0 = k
    · subst h
      simp [mapSet, mapGet, hne]
    · by_cases h1 : k0 = k1
      · subst h1
        simp [mapSet, mapGet, h]
      · simp [mapSet, mapGet, h, h1, ih]

theorem mapGet_mapSet {V : Type} (m : GoMap V) (k k1 : String) (v : V) :
    mapGet (mapSet m k v) k1 = if k = k1 then some v else mapGet m k1 := by
  by_cases h : k = k1
  · subst h
    simp [mapGet_mapSet_self]
  · simp [h, mapGet_mapSet_ne m k k1 v h]

theorem mem_mapKeys_iff {V : Type} (m : GoMap V) (k : String) :
    k ∈ mapKeys m ↔ mapGet m k ≠ none := by
  induction m with
  | nil => simp [mapKeys, mapGet]
  | cons kv m ih =>
    obtain ⟨k0, v0⟩ := kv
    by_cases h : k0 = k
    · simp [mapKeys, mapGet, h]
    · have ih1 : k ∈ List.map Prod.fst m ↔ mapGet m k ≠ none := ih
      have h2 : ¬ k = k0 := fun e => h e.symm
      simp [mapKeys, mapGet, h, h2, ih1]

theorem not_mem_mapKeys_iff {V : Type} (m : GoMap V) (k : String) :
    k ∉ mapKeys m ↔ mapGet m k = none := by
  rw [mem_mapKeys_iff]
  simp

theorem mapKeys_mapSet_of_mem {V : Type} (m : GoMap V) (k : String) (v : V)
    (h : k ∈ mapKeys m) : mapKeys (mapSet m k v) = mapKeys m := by
  induction m with
  | nil => simp [mapKeys] at h
  | cons kv m ih =>
    obtain ⟨k0, v0⟩ := kv
    by_cases h0 : k0 = k
    · simp [mapSet, mapKeys, h0]
    · have h2 : ¬ k = k0 := fun e => h0 e.symm
      have hm : k ∈ mapKeys m := by
        simpa [mapKeys, h2] using h
      have := ih hm
      simp only [mapKeys] at this
      simp [mapSet, mapKeys, h0, this]

theorem mapKeys_mapSet_of_not_mem {V : Type} (m : GoMap V) (k : String) (v : V)
    (h : k ∉ mapKeys m) : mapKeys (mapSet m k v) = mapKeys m ++ [k] := by
  induction m with
  | nil => simp [mapKeys, mapSet]
  | cons kv m ih =>
    obtain ⟨k0, v0⟩ := kv
    have h0 : ¬ k0 = k := by
      intro e
      apply h
      simp [mapKeys, e]
    have hm : k ∉ mapKeys m := by
      intro hk
      apply h
      simp only [mapKeys, List.map_cons, List.mem_cons]
      exact Or.inr hk
    have := ih hm
    simp only [mapKeys] at this
    simp [mapSet, mapKeys, h0, this]

theorem mapKeys_mapSet_nodup {V : Type} (m : GoMap V) (k : String) (v : V)
    (h : (mapKeys m).Nodup) : (mapKeys (mapSet m k v)).Nodup := by
  by_cases hk : k ∈ mapKeys m
  · rw [mapKeys_mapSet_of_mem m k v hk]
    exact h
  · rw [mapKeys_mapSet_of_not_mem m k v hk]
    apply List.Nodup.append h (List.nodup_singleton k)
    intro x hx hx1
    simp only [List.mem_singleton] at hx1
    subst hx1
    exact hk hx

theorem mem_mapKeys_mapSet {V : Type} (m : GoMap V) (k k1 : String) (v : V) :
    k1 ∈ mapKeys (mapSet m k v) ↔ k1 = k ∨ k1 ∈ mapKeys m := by
  rw [mem_mapKeys_iff, mem_mapKeys_iff, mapGet_mapSet]
  by_cases h : k = k1
  · simp [h]
  · have h2 : ¬ k1 = k := fun e => h e.symm
    simp [h, h2]

theorem removeMissed_eq_erase (l : List String) (id : String) :
    removeMissed l id = l.erase id := by
  induction l with
  | nil => rfl
  | cons a l ih =>
    by_cases h : a = id
    · simp [removeMissed, h]
    · have hb : (a == id) = false := by simpa using h
      simp [removeMissed, h, List.erase_cons, hb, ih]

/-! ## The snapshot of the connected clients -/

theorem connectedAt_mem_keys (clients : Registry) (id : String)
    (h : connectedAt clients id = true) : id ∈ mapKeys clients := by
  rw [mem_mapKeys_iff]
  intro hn
  simp [connectedAt, hn] at h

theorem snapshotBody_eq (clients : Registry) (acc : GoMap Bool × broadcastResult)
    (id : String) :
    snapshotBody clients acc id =
      if connectedAt clients id = true then
        (mapSet acc.1 id true, { acc.2 with MissedBy := acc.2.MissedBy ++ [id] })
      else acc := by
  unfold snapshotBody connectedAt
  cases h : mapGet clients id with
  | none => simp
  | some c => simp

theorem snapshot_fold_result (clients : Registry) (order : List String)
    (acc : GoMap Bool × broadcastResult) :
    (order.foldl (snapshotBody clients) acc).2 =
      { acc.2 with MissedBy := acc.2.MissedBy ++ order.filter (connectedAt clients) } := by
  induction order generalizing acc with
  | nil => simp
  | cons id order ih =>
    rw [List.foldl_cons, ih, snapshotBody_eq]
    by_cases h : connectedAt clients id = true
    · simp [h]
    · simp [h]

theorem snapshot_fold_keys (clients : Registry) (order : List String)
    (acc : GoMap Bool × broadcastResult) (hnd : order.Nodup)
    (hdis : ∀ x ∈ order, x ∉ mapKeys acc.1) :
    mapKeys (order.foldl (snapshotBody clients) acc).1 =
      mapKeys acc.1 ++ order.filter (connectedAt clients) := by
  induction order generalizing acc with
  | nil => simp
  | cons id order ih =>
    have hnd1 : order.Nodup := (List.nodup_cons.mp hnd).2
    have hid : id ∉ order := (List.nodup_cons.mp hnd).1
    rw [List.foldl_cons, snapshotBody_eq]
    by_cases h : connectedAt clients id = true
    · have hk : id ∉ mapKeys acc.1 := hdis id (List.mem_cons_self id order)
      rw [if_pos h, ih _ hnd1]
      · simp [mapKeys_mapSet_of_not_mem acc.1 id true hk, h]
      · intro x hx
        simp only [mem_mapKeys_mapSet]
        intro hx1
        rcases hx1 with hx1 | hx1
        · subst hx1
          exact hid hx
        · exact hdis x (List.mem_cons_of_mem id hx) hx1
    · rw [if_neg h, ih _ hnd1]
      · simp [h]
      · intro x hx
        exact hdis x (List.mem_cons_of_mem id hx)

theorem snapshot_result (packet : BroadcastPacket) (timeout : Int) (order : List String)
    (clients : Registry) :
    (snapshot packet timeout order clients).2 =
      { PacketID := packet.ID, SentAt := packet.Timestamp, ReceivedBy := [],
        MissedBy := order.filter (connectedAt clients),
        TotalClients := mapLen (snapshot packet timeout order clients).1,
        Timeout := timeout } := by
  simp [snapshot, snapshot_fold_result]

theorem snapshot_keys (packet : BroadcastPacket) (timeout : Int) (order : List String)
    (clients : Registry) (hnd : order.Nodup) :
    mapKeys (snapshot packet timeout order clients).1 = order.filter (connectedAt clients) := by
  unfold snapshot
  simp only []
  rw [snapshot_fold_keys clients order _ hnd (by simp [mapKeys])]
  simp [mapKeys]

theorem countConnected_eq (clients : Registry) (hnd : (mapKeys clients).Nodup) :
    ((mapKeys clients).filter (connectedAt clients)).length = countConnected clients := by
  induction clients with
  | nil => rfl
  | cons kv m ih =>
    obtain ⟨k, c⟩ := kv
    have hk : k ∉ mapKeys m := by
      have := (List.nodup_cons.mp hnd).1
      simpa [mapKeys] using this
    have hm : (mapKeys m).Nodup := by
      have := (List.nodup_cons.mp hnd).2
      simpa [mapKeys] using this
    have hcongr : (mapKeys m).filter (connectedAt ((k, c) :: m)) =
        (mapKeys m).filter (connectedAt m) := by
      apply List.filter_congr
      intro x hx
      have hne : ¬ k = x := by
        intro e
        subst e
        exact hk hx
      simp [connectedAt, mapGet, hne]
    have hhead : connectedAt ((k, c) :: m) k = c.Connected := by
      simp [connectedAt, mapGet]
    have ih1 := ih hm
    have hkeys : mapKeys ((k, c) :: m) = k :: mapKeys m := rfl
    rw [hkeys, List.filter_cons, hhead, hcongr]
    unfold countConnected at ih1 ⊢
    rw [List.filter_cons]
    cases hc : c.Connected with
    | true => simp [ih1]
    | false => simp [ih1]

theorem snapshot_total (packet : BroadcastPacket) (timeout : Int) (order : List String)
    (clients : Registry) (hnd : (mapKeys clients).Nodup)
    (hperm : order.Perm (mapKeys clients)) :
    (snapshot packet timeout order clients).2.TotalClients = countConnected clients := by
  have hond : order.Nodup := hperm.nodup_iff.mpr hnd
  rw [snapshot_result]
  show mapLen (snapshot packet timeout order clients).1 = countConnected clients
  have hlen : mapLen (snapshot packet timeout order clients).1 =
      (mapKeys (snapshot packet timeout order clients).1).length := by
    simp [mapLen, mapKeys]
  rw [hlen, snapshot_keys packet timeout order clients hond, ← countConnected_eq clients hnd]
  exact (hperm.filter _).length_eq

theorem mem_snapshot_missed (packet : BroadcastPacket) (timeout : Int) (order : List String)
    (clients : Registry) (hperm : order.Perm (mapKeys clients)) (id : String) :
    id ∈ (snapshot packet timeout order clients).2.MissedBy ↔
      connectedAt clients id = true := by
  rw [snapshot_result]
  simp only [List.mem_filter]
  constructor
  · exact fun h => h.2
  · intro h
    exact ⟨hperm.mem_iff.mpr (connectedAt_mem_keys clients id h), h⟩

/-! ## The handlers -/

theorem handleRegister_get (c : Client) (now : Time) (clients : Registry) (id : String) :
    mapGet (handleRegister (some c) now clients).2 id =
      if c.ID = id then some { c with LastSeen := now, Connected := true }
      else mapGet clients id := by
  simp [handleRegister, mapGet_mapSet]

theorem handleRegister_none (now : Time) (clients : Registry) :
    (handleRegister none now clients).2 = clients := rfl

theorem handleReport_none (lib : Lib) (clients : Registry) :
    (handleReport lib none clients).2 = clients := rfl

theorem handleReport_unknown (lib : Lib) (r : BroadcastReport) (clients : Registry)
    (h : mapGet clients r.ClientID = none) :
    handleReport lib (some r) clients = (HTTPStatus.StatusNotFound, clients) := by
  simp [handleReport, h]

theorem handleReport_known (lib : Lib) (r : BroadcastReport) (clients : Registry)
    (c : Client) (h : mapGet clients r.ClientID = some c) :
    handleReport lib (some r) clients =
      (HTTPStatus.StatusOK, mapSet clients r.ClientID
        { c with
          LastSeen := r.Timestamp,
          Metadata := some (mapSet (c.Metadata.getD []) "last_packet_id"
            (lib.uuidString r.PacketID)) }) := by
  cases hm : c.Metadata with
  | none => simp [handleReport, h, hm]
  | some m => simp [handleReport, h, hm]

theorem handleRegister_keys_nodup (body : Option Client) (now : Time) (clients : Registry)
    (h : (mapKeys clients).Nodup) : (mapKeys (handleRegister body now clients).2).Nodup := by
  cases body with
  | none => exact h
  | some c => exact mapKeys_mapSet_nodup _ _ _ h

theorem handleReport_keys (lib : Lib) (body : Option BroadcastReport) (clients : Registry) :
    mapKeys (handleReport lib body clients).2 = mapKeys clients := by
  cases body with
  | none => rfl
  | some r =>
    cases h : mapGet clients r.ClientID with
    | none => rw [handleReport_unknown lib r clients h]
    | some c =>
      rw [handleReport_known lib r clients c h]
      apply mapKeys_mapSet_of_mem
      rw [mem_mapKeys_iff, h]
      simp

theorem handleRegister_connectedAt (body : Option Client) (now : Time) (clients : Registry)
    (id : String) (h : connectedAt clients id = true) :
    connectedAt (handleRegister body now clients).2 id = true := by
  cases body with
  | none => exact h
  | some c =>
    unfold connectedAt
    rw [handleRegister_get]
    by_cases hc : c.ID = id
    · simp [hc]
    · simpa [hc, connectedAt] using h

theorem handleReport_connectedAt (lib : Lib) (body : Option BroadcastReport)
    (clients : Registry) (id : String) (h : connectedAt clients id = true) :
    connectedAt (handleReport lib body clients).2 id = true := by
  cases body with
  | none => exact h
  | some r =>
    cases hg : mapGet clients r.ClientID with
    | none =>
      rw [handleReport_unknown lib r clients hg]
      exact h
    | some c =>
      rw [handleReport_known lib r clients c hg]
      unfold connectedAt
      rw [mapGet_mapSet]
      by_cases hc : r.ClientID = id
      · subst hc
        simpa [connectedAt, hg] using h
      · simpa [hc, connectedAt] using h

/-! ## The sampling tick -/

theorem tickBody_eq (lib : Lib) (packet : BroadcastPacket) (clients : Registry)
    (result : broadcastResult) (id : String) :
    tickBody lib packet clients result id =
      match ackTime packet clients id, mapGet result.ReceivedBy id with
      | some t, none =>
        { result with
          ReceivedBy := mapSet result.ReceivedBy id (lib.formatRFC3339 t),
          MissedBy := removeMissed result.MissedBy id }
      | _, _ => result := by
  unfold tickBody ackTime
  cases hc : mapGet clients id with
  | none => simp
  | some c =>
    by_cases hcond : (c.Connected && c.LastSeen.After packet.Timestamp) = true
    · cases hr : mapGet result.ReceivedBy id with
      | none => simp [hcond]
      | some v => simp [hcond]
    · cases hr : mapGet result.ReceivedBy id with
      | none => simp [hcond]
      | some v => simp [hcond]

theorem tickBody_get (lib : Lib) (packet : BroadcastPacket) (clients : Registry)
    (result : broadcastResult) (id k : String) :
    mapGet (tickBody lib packet clients result id).ReceivedBy k =
      match mapGet result.ReceivedBy k with
      | some v => some v
      | none => if id = k then (ackTime packet clients id).map lib.formatRFC3339 else none := by
  rw [tickBody_eq]
  cases ha : ackTime packet clients id with
  | none =>
    cases hk : mapGet result.ReceivedBy k with
    | none => simp
    | some v => simp
  | some t =>
    cases hr : mapGet result.ReceivedBy id with
    | some v =>
      cases hk : mapGet result.ReceivedBy k with
      | none =>
        have hne : ¬ id = k := by
          intro e
          rw [e, hk] at hr
          cases hr
        simp [hne]
      | some w => simp
    | none =>
      simp only [mapGet_mapSet]
      by_cases hik : id = k
      · subst hik
        simp [hr]
      · cases hk : mapGet result.ReceivedBy k with
        | none => simp [hik]
        | some w => simp [hik]

theorem tickBody_tracked (lib : Lib) (packet : BroadcastPacket) (clients : Registry)
    (U : String → Bool) (result : broadcastResult) (id : String) (h : Tracked U result) :
    Tracked U (tickBody lib packet clients result id) := by
  rw [tickBody_eq]
  cases ha : ackTime packet clients id with
  | none => simpa using h
  | some t =>
    cases hr : mapGet result.ReceivedBy id with
    | some v => simpa using h
    | none =>
      obtain ⟨hnd, hmem⟩ := h
      refine ⟨?_, ?_⟩
      · simp only [removeMissed_eq_erase]
        exact hnd.erase id
      · intro k
        simp only [removeMissed_eq_erase, hnd.mem_erase_iff, mapGet_mapSet, hmem k]
        by_cases hik : id = k
        · subst hik
          simp
        · have hki : ¬ k = id := fun e => hik e.symm
          simp [hik, hki]

theorem tick_tracked (lib : Lib) (packet : BroadcastPacket) (order : List String)
    (clients : Registry) (U : String → Bool) (result : broadcastResult)
    (h : Tracked U result) : Tracked U (tick lib packet order clients result) := by
  unfold tick
  induction order generalizing result with
  | nil => exact h
  | cons id order ih =>
    rw [List.foldl_cons]
    exact ih _ (tickBody_tracked lib packet clients U result id h)

theorem tick_get (lib : Lib) (packet : BroadcastPacket) (order : List String)
    (clients : Registry) (result : broadcastResult) (k : String) :
    mapGet (tick lib packet order clients result).ReceivedBy k =
      match mapGet result.ReceivedBy k with
      | some v => some v
      | none =>
        if k ∈ order then (ackTime packet clients k).map lib.formatRFC3339 else none := by
  unfold tick
  induction order generalizing result with
  | nil =>
    cases hk : mapGet result.ReceivedBy k with
    | none => simp [hk]
    | some v => simp [hk]
  | cons id order ih =>
    rw [List.foldl_cons, ih, tickBody_get]
    cases hk : mapGet result.ReceivedBy k with
    | some v => simp
    | none =>
      by_cases hik : id = k
      · subst hik
        cases ha : ackTime packet clients id with
        | none => simp
        | some t => simp
      · have hki : ¬ k = id := fun e => hik e.symm
        simp [hik, hki]

theorem tickBody_fields (lib : Lib) (packet : BroadcastPacket) (clients : Registry)
    (result : broadcastResult) (id : String) :
    (tickBody lib packet clients result id).TotalClients = result.TotalClients ∧
    (tickBody lib packet clients result id).PacketID = result.PacketID ∧
    (tickBody lib packet clients result id).SentAt = result.SentAt ∧
    (tickBody lib packet clients result id).Timeout = result.Timeout := by
  rw [tickBody_eq]
  cases ha : ackTime packet clients id with
  | none => simp
  | some t =>
    cases hr : mapGet result.ReceivedBy id with
    | some v => simp
    | none => simp

theorem tick_fields (lib : Lib) (packet : BroadcastPacket) (order : List String)
    (clients : Registry) (result : broadcastResult) :
    (tick lib packet order clients result).TotalClients = result.TotalClients ∧
    (tick lib packet order clients result).PacketID = result.PacketID ∧
    (tick lib packet order clients result).SentAt = result.SentAt ∧
    (tick lib packet order clients result).Timeout = result.Timeout := by
  unfold tick
  induction order generalizing result with
  | nil => simp
  | cons id order ih =>
    rw [List.foldl_cons]
    have h1 := ih (tickBody lib packet clients result id)
    have h2 := tickBody_fields lib packet clients result id
    exact ⟨h1.1.trans h2.1, h1.2.1.trans h2.2.1, h1.2.2.1.trans h2.2.2.1,
      h1.2.2.2.trans h2.2.2.2⟩

theorem ackTime_after (packet : BroadcastPacket) (clients : Registry) (id : String)
    (t : Time) (h : ackTime packet clients id = some t) :
    t.After packet.Timestamp = true := by
  unfold ackTime at h
  cases hc : mapGet clients id with
  | none => simp [hc] at h
  | some c =>
    simp only [hc] at h
    by_cases hcond : (c.Connected && c.LastSeen.After packet.Timestamp) = true
    · simp only [hcond, if_true, Option.some.injEq] at h
      subst h
      simp only [Bool.and_eq_true] at hcond
      exact hcond.2
    · simp [hcond] at h

theorem tick_stamped (lib : Lib) (packet : BroadcastPacket) (order : List String)
    (clients : Registry) (result : broadcastResult) (h : Stamped lib packet result) :
    Stamped lib packet (tick lib packet order clients result) := by
  intro k v hv
  rw [tick_get] at hv
  cases hk : mapGet result.ReceivedBy k with
  | some w =>
    simp only [hk, Option.some.injEq] at hv
    subst hv
    exact h k w hk
  | none =>
    simp only [hk] at hv
    by_cases hmem : k ∈ order
    · simp only [hmem, if_true] at hv
      cases ha : ackTime packet clients k with
      | none => simp [ha] at hv
      | some t =>
        simp only [ha, Option.map_some', Option.some.injEq] at hv
        exact ⟨t, ackTime_after packet clients k t ha, hv.symm⟩
    · simp [hmem] at hv

/-! ## The deadline step -/

theorem deadlineBody_eq (result : broadcastResult) (id : String) :
    deadlineBody result id =
      { result with
        MissedBy := result.MissedBy ++
          (if mapGet result.ReceivedBy id = none then [id] else []) } := by
  unfold deadlineBody
  cases h : mapGet result.ReceivedBy id with
  | none => simp
  | some v => simp

theorem deadlineAppend_eq (order : List String) (result : broadcastResult) :
    deadlineAppend order result =
      { result with
        MissedBy := result.MissedBy ++
          order.filter (fun id => decide (mapGet result.ReceivedBy id = none)) } := by
  unfold deadlineAppend
  induction order generalizing result with
  | nil => simp
  | cons id order ih =>
    rw [List.foldl_cons, ih, deadlineBody_eq]
    by_cases h : mapGet result.ReceivedBy id = none
    · simp [h]
    · simp [h]

theorem uniqueLoop_absorb (seen : GoMap Bool) (acc l : List String)
    (hs : ∀ id, (mapGet seen id).getD false = true ↔ id ∈ acc)
    (hl : ∀ x ∈ l, x ∈ acc) : uniqueLoop seen acc l = acc := by
  induction l with
  | nil => rfl
  | cons a l ih =>
    have ha : (mapGet seen a).getD false = true := (hs a).mpr (hl a (List.mem_cons_self a l))
    simp only [uniqueLoop, ha, if_true]
    exact ih (fun x hx => hl x (List.mem_cons_of_mem a hx))

theorem uniqueLoop_append (seen : GoMap Bool) (acc M M1 : List String)
    (hs : ∀ id, (mapGet seen id).getD false = true ↔ id ∈ acc)
    (hM : M.Nodup) (hdis : ∀ x ∈ M, x ∉ acc) (hM1 : ∀ x ∈ M1, x ∈ acc ∨ x ∈ M) :
    uniqueLoop seen acc (M ++ M1) = acc ++ M := by
  induction M generalizing seen acc with
  | nil =>
    simp only [List.nil_append, List.append_nil]
    apply uniqueLoop_absorb seen acc M1 hs
    intro x hx
    rcases hM1 x hx with h | h
    · exact h
    · simp at h
  | cons a M ih =>
    have haM : a ∉ M := (List.nodup_cons.mp hM).1
    have hMnd : M.Nodup := (List.nodup_cons.mp hM).2
    have ha : ¬ (mapGet seen a).getD false = true := by
      intro h
      exact hdis a (List.mem_cons_self a M) ((hs a).mp h)
    have hfalse : (mapGet seen a).getD false = false := by simpa using ha
    have hstep : uniqueLoop seen acc ((a :: M) ++ M1) =
        uniqueLoop (mapSet seen a true) (acc ++ [a]) (M ++ M1) := by
      simp [uniqueLoop, hfalse]
    rw [hstep, ih (mapSet seen a true) (acc ++ [a])]
    · simp
    · intro id
      rw [mapGet_mapSet]
      by_cases h : a = id
      · subst h
        simp
      · have h2 : ¬ id = a := fun e => h e.symm
        simp [h, h2, hs id]
    · exact hMnd
    · intro x hx
      simp only [List.mem_append, List.mem_singleton, not_or]
      refine ⟨hdis x (List.mem_cons_of_mem a hx), ?_⟩
      intro e
      subst e
      exact haM hx
    · intro x hx
      rcases hM1 x hx with h | h
      · exact Or.inl (List.mem_append_left _ h)
      · rcases List.mem_cons.mp h with h | h
        · subst h
          exact Or.inl (by simp)
        · exact Or.inr h

theorem deadline_eq (U : String → Bool) (order : List String) (result : broadcastResult)
    (h : Tracked U result) (ho : ∀ x ∈ order, U x = true) :
    deadline order result = result := by
  unfold deadline
  rw [deadlineAppend_eq]
  have hu : uniqueLoop [] [] (result.MissedBy ++
      order.filter (fun id => decide (mapGet result.ReceivedBy id = none))) =
      [] ++ result.MissedBy := by
    apply uniqueLoop_append
    · intro id
      simp [mapGet]
    · exact h.1
    · intro x _
      simp
    · intro x hx
      simp only [List.mem_filter, decide_eq_true_eq] at hx
      exact Or.inr ((h.2 x).mpr ⟨ho x hx.1, hx.2⟩)
  simp only [hu, List.nil_append]

/-! ## The wait of a run -/

theorem runInv_start (lib : Lib) (packet : BroadcastPacket) (timeout : Int)
    (snapOrder : List String) (clients : Registry) (hnd : (mapKeys clients).Nodup)
    (hperm : snapOrder.Perm (mapKeys clients)) :
    RunInv lib packet clients (start packet timeout snapOrder clients) := by
  have hond : snapOrder.Nodup := hperm.nodup_iff.mpr hnd
  refine ⟨hnd, fun _ h => h, ⟨?_, ?_⟩, ?_, ?_⟩
  · show (snapshot packet timeout snapOrder clients).2.MissedBy.Nodup
    rw [snapshot_result]
    exact hond.filter _
  · intro id
    show id ∈ (snapshot packet timeout snapOrder clients).2.MissedBy ↔ _
    rw [mem_snapshot_missed packet timeout snapOrder clients hperm]
    show _ ↔ _ ∧ mapGet (snapshot packet timeout snapOrder clients).2.ReceivedBy id = none
    rw [snapshot_result]
    simp [mapGet]
  · intro id v hv
    have hv1 : mapGet (snapshot packet timeout snapOrder clients).2.ReceivedBy id = some v := hv
    rw [snapshot_result] at hv1
    simp [mapGet] at hv1
  · exact snapshot_total packet timeout snapOrder clients hnd hperm

theorem runInv_step (lib : Lib) (packet : BroadcastPacket) (clients0 : Registry)
    (s : RunState) (e : Event) (h : RunInv lib packet clients0 s) :
    RunInv lib packet clients0 (step lib packet s e) := by
  cases e with
  | tick order =>
    exact ⟨h.keys, h.connected, tick_tracked lib packet order s.clients _ s.result h.tracked,
      tick_stamped lib packet order s.clients s.result h.stamped,
      (tick_fields lib packet order s.clients s.result).1.trans h.total⟩
  | register body now =>
    exact ⟨handleRegister_keys_nodup body now s.clients h.keys,
      fun id hid => handleRegister_connectedAt body now s.clients id (h.connected id hid),
      h.tracked, h.stamped, h.total⟩
  | report body =>
    refine ⟨?_, fun id hid => handleReport_connectedAt lib body s.clients id (h.connected id hid),
      h.tracked, h.stamped, h.total⟩
    show (mapKeys (handleReport lib body s.clients).2).Nodup
    rw [handleReport_keys]
    exact h.keys

theorem runInv_runEvents (lib : Lib) (packet : BroadcastPacket) (clients0 : Registry)
    (s : RunState) (events : List Event) (h : RunInv lib packet clients0 s) :
    RunInv lib packet clients0 (runEvents lib packet s events) := by
  unfold runEvents
  induction events generalizing s with
  | nil => exact h
  | cons e events ih =>
    rw [List.foldl_cons]
    exact ih _ (runInv_step lib packet clients0 s e h)

theorem runInv_of_validRun (lib : Lib) (packet : BroadcastPacket) (timeout : Int)
    (snapOrder : List String) (events : List Event) (deadlineOrder : List String)
    (clients : Registry)
    (h : ValidRun lib packet timeout snapOrder events deadlineOrder clients) :
    RunInv lib packet clients
      (runEvents lib packet (start packet timeout snapOrder clients) events) :=
  runInv_runEvents lib packet clients _ events
    (runInv_start lib packet timeout snapOrder clients h.1 h.2.1)

theorem deadlineOrder_connected (lib : Lib) (packet : BroadcastPacket) (timeout : Int)
    (snapOrder : List String) (events : List Event) (deadlineOrder : List String)
    (clients : Registry)
    (h : ValidRun lib packet timeout snapOrder events deadlineOrder clients) :
    ∀ x ∈ deadlineOrder, connectedAt clients x = true := by
  intro x hx
  have hond : snapOrder.Nodup := h.2.1.nodup_iff.mpr h.1
  have hx1 := h.2.2.2.mem_iff.mp hx
  rw [snapshot_keys packet timeout snapOrder clients hond] at hx1
  exact (List.mem_filter.mp hx1).2

theorem handleBroadcast_eq (lib : Lib) (packet : BroadcastPacket) (timeout : Int)
    (snapOrder : List String) (events : List Event) (deadlineOrder : List String)
    (clients : Registry)
    (h : ValidRun lib packet timeout snapOrder events deadlineOrder clients) :
    handleBroadcast lib packet timeout snapOrder events deadlineOrder clients =
      (runEvents lib packet (start packet timeout snapOrder clients) events).result := by
  unfold handleBroadcast
  exact deadline_eq (connectedAt clients) deadlineOrder _
    (runInv_of_validRun lib packet timeout snapOrder events deadlineOrder clients h).tracked
    (deadlineOrder_connected lib packet timeout snapOrder events deadlineOrder clients h)

theorem runEvents_append (lib : Lib) (packet : BroadcastPacket) (s : RunState)
    (a b : List Event) :
    runEvents lib packet s (a ++ b) = runEvents lib packet (runEvents lib packet s a) b := by
  simp [runEvents, List.foldl_append]

theorem registryAfter_append (lib : Lib) (clients : Registry) (a b : List Event) :
    registryAfter lib clients (a ++ b) = registryAfter lib (registryAfter lib clients a) b := by
  simp [registryAfter, List.foldl_append]

theorem runEvents_clients (lib : Lib) (packet : BroadcastPacket) (s : RunState)
    (events : List Event) :
    (runEvents lib packet s events).clients = registryAfter lib s.clients events := by
  unfold runEvents registryAfter
  induction events generalizing s with
  | nil => rfl
  | cons e events ih =>
    rw [List.foldl_cons, List.foldl_cons, ih]
    cases e <;> rfl

theorem validEvents_append (lib : Lib) (clients : Registry) (a b : List Event) :
    validEvents lib clients (a ++ b) =
      (validEvents lib clients a && validEvents lib (registryAfter lib clients a) b) := by
  induction a generalizing clients with
  | nil => simp [validEvents, registryAfter]
  | cons e a ih =>
    cases e with
    | tick order =>
      simp only [List.cons_append, validEvents, registryAfter, List.foldl_cons, serve,
        Bool.and_assoc]
      exact congrArg (fun z => decide (order.Perm (mapKeys clients)) && z) (ih clients)
    | register body now =>
      simp only [List.cons_append, validEvents, registryAfter, List.foldl_cons, serve]
      exact ih _
    | report body =>
      simp only [List.cons_append, validEvents, registryAfter, List.foldl_cons, serve]
      exact ih _

theorem step_get_persist (lib : Lib) (packet : BroadcastPacket) (s : RunState) (e : Event)
    (id v : String) (h : mapGet s.result.ReceivedBy id = some v) :
    mapGet (step lib packet s e).result.ReceivedBy id = some v := by
  cases e with
  | tick order =>
    show mapGet (tick lib packet order s.clients s.result).ReceivedBy id = some v
    rw [tick_get, h]
  | register body now => exact h
  | report body => exact h

theorem runEvents_get_persist (lib : Lib) (packet : BroadcastPacket) (s : RunState)
    (events : List Event) (id v : String) (h : mapGet s.result.ReceivedBy id = some v) :
    mapGet (runEvents lib packet s events).result.ReceivedBy id = some v := by
  unfold runEvents
  induction events generalizing s with
  | nil => exact h
  | cons e events ih =>
    rw [List.foldl_cons]
    exact ih _ (step_get_persist lib packet s e id v h)

theorem serve_get_of_target_ne (lib : Lib) (clients : Registry) (e : Event) (id : String)
    (h : e.target ≠ some id) : mapGet (serve lib clients e) id = mapGet clients id := by
  cases e with
  | tick order => rfl
  | register body now =>
    cases body with
    | none => rfl
    | some c =>
      have hne : ¬ c.ID = id := by
        intro e
        apply h
        simp [Event.target, e]
      show mapGet (handleRegister (some c) now clients).2 id = _
      rw [handleRegister_get, if_neg hne]
  | report body =>
    cases body with
    | none => rfl
    | some r =>
      have hne : ¬ r.ClientID = id := by
        intro e
        apply h
        simp [Event.target, e]
      show mapGet (handleReport lib (some r) clients).2 id = _
      cases hg : mapGet clients r.ClientID with
      | none => rw [handleReport_unknown lib r clients hg]
      | some c =>
        rw [handleReport_known lib r clients c hg, mapGet_mapSet, if_neg hne]

theorem registryAfter_get_of_target_ne (lib : Lib) (clients : Registry)
    (events : List Event) (id : String) (h : ∀ e ∈ events, e.target ≠ some id) :
    mapGet (registryAfter lib clients events) id = mapGet clients id := by
  unfold registryAfter
  induction events generalizing clients with
  | nil => rfl
  | cons e events ih =>
    rw [List.foldl_cons, ih _ (fun x hx => h x (List.mem_cons_of_mem e hx))]
    exact serve_get_of_target_ne lib clients e id (h e (List.mem_cons_self e events))

theorem stateAfter_tick (lib : Lib) (packet : BroadcastPacket) (timeout : Int)
    (snapOrder : List String) (clients : Registry) (events : List Event)
    (order : List String) :
    (stateAfter lib packet timeout snapOrder clients (events ++ [Event.tick order])).result =
      tick lib packet order
        (stateAfter lib packet timeout snapOrder clients events).clients
        (stateAfter lib packet timeout snapOrder clients events).result := by
  unfold stateAfter
  rw [runEvents_append]
  rfl

theorem stateAfter_clients (lib : Lib) (packet : BroadcastPacket) (timeout : Int)
    (snapOrder : List String) (clients : Registry) (events : List Event) :
    (stateAfter lib packet timeout snapOrder clients events).clients =
      registryAfter lib clients events := by
  unfold stateAfter
  rw [runEvents_clients]
  rfl

theorem stateAfter_inv (lib : Lib) (packet : BroadcastPacket) (timeout : Int)
    (snapOrder : List String) (clients : Registry) (events : List Event)
    (hnd : (mapKeys clients).Nodup) (hperm : snapOrder.Perm (mapKeys clients)) :
    RunInv lib packet clients (stateAfter lib packet timeout snapOrder clients events) :=
  runInv_runEvents lib packet clients _ events
    (runInv_start lib packet timeout snapOrder clients hnd hperm)

theorem stateAfter_persist (lib : Lib) (packet : BroadcastPacket) (timeout : Int)
    (snapOrder : List String) (clients : Registry) (events later : List Event)
    (id v : String)
    (h : mapGet (stateAfter lib packet timeout snapOrder clients events).result.ReceivedBy id =
      some v) :
    mapGet (stateAfter lib packet timeout snapOrder clients
      (events ++ later)).result.ReceivedBy id = some v := by
  unfold stateAfter at h ⊢
  rw [runEvents_append]
  exact runEvents_get_persist lib packet _ later id v h

theorem connectedAt_iff (clients : Registry) (id : String) :
    connectedAt clients id = true ↔ ∃ c, mapGet clients id = some c ∧ c.Connected = true := by
  unfold connectedAt
  cases h : mapGet clients id with
  | none => simp
  | some c => simp

theorem tick_get_connected (lib : Lib) (packet : BroadcastPacket) (order : List String)
    (clients : Registry) (result : broadcastResult) (id : String) (c : Client)
    (hc : mapGet clients id = some c) (hconn : c.Connected = true) (hmem : id ∈ order) :
    mapGet (tick lib packet order clients result).ReceivedBy id =
      match mapGet result.ReceivedBy id with
      | some v => some v
      | none =>
        if c.LastSeen.After packet.Timestamp = true then some (lib.formatRFC3339 c.LastSeen)
        else none := by
  rw [tick_get]
  cases hr : mapGet result.ReceivedBy id with
  | some v => rfl
  | none =>
    simp only [hmem, if_true, ackTime, hc, hconn, Bool.true_and]
    by_cases ha : c.LastSeen.After packet.Timestamp = true
    · simp [ha]
    · simp [ha]

theorem tick_order_perm (lib : Lib) (clients : Registry) (events : List Event)
    (order : List String) (rest : List Event)
    (h : validEvents lib clients (events ++ Event.tick order :: rest) = true) :
    order.Perm (mapKeys (registryAfter lib clients events)) := by
  rw [validEvents_append] at h
  simp only [Bool.and_eq_true, validEvents, decide_eq_true_eq] at h
  exact h.2.1

theorem mapSet_mapSet_self {V : Type} (m : GoMap V) (k : String) (v : V) :
    mapSet (mapSet m k v) k v = mapSet m k v := by
  induction m with
  | nil => simp [mapSet]
  | cons kv m ih =>
    obtain ⟨k0, v0⟩ := kv
    by_cases h : k0 = k
    · simp [mapSet, h]
    · simp [mapSet, h, ih]

/-! ## Registries that differ in metadata only -/

theorem regSim_refl (a : Registry) : RegSim a a := by
  unfold RegSim
  induction a with
  | nil => exact List.Forall₂.nil
  | cons x a ih => exact List.Forall₂.cons ⟨rfl, rfl, rfl⟩ ih

theorem regSim_get (a b : Registry) (h : RegSim a b) (id : String) :
    (mapGet a id = none ∧ mapGet b id = none) ∨
    ∃ c d, mapGet a id = some c ∧ mapGet b id = some d ∧
      c.LastSeen = d.LastSeen ∧ c.Connected = d.Connected := by
  unfold RegSim at h
  induction a generalizing b with
  | nil =>
    cases h
    exact Or.inl ⟨rfl, rfl⟩
  | cons x a ih =>
    cases b with
    | nil => cases h
    | cons y b1 =>
      rw [List.forall₂_cons] at h
      obtain ⟨⟨hk, hl, hcn⟩, hrest⟩ := h
      obtain ⟨k, c⟩ := x
      obtain ⟨k1, d⟩ := y
      simp only at hk hl hcn
      subst hk
      by_cases hid : k = id
      · exact Or.inr ⟨c, d, by simp [mapGet, hid], by simp [mapGet, hid], hl, hcn⟩
      · simpa [mapGet, hid] using ih b1 hrest

theorem regSim_mapSet (a b : Registry) (h : RegSim a b) (k : String) (c d : Client)
    (hl : c.LastSeen = d.LastSeen) (hcn : c.Connected = d.Connected) :
    RegSim (mapSet a k c) (mapSet b k d) := by
  unfold RegSim at h ⊢
  induction a generalizing b with
  | nil =>
    cases h
    exact List.Forall₂.cons ⟨rfl, hl, hcn⟩ List.Forall₂.nil
  | cons x a ih =>
    cases b with
    | nil => cases h
    | cons y b1 =>
      rw [List.forall₂_cons] at h
      obtain ⟨⟨hk, hl0, hcn0⟩, hrest⟩ := h
      obtain ⟨k0, c0⟩ := x
      obtain ⟨k1, d0⟩ := y
      simp only at hk hl0 hcn0
      subst hk
      by_cases hid : k0 = k
      · simp only [mapSet, hid, if_true]
        exact List.Forall₂.cons ⟨rfl, hl, hcn⟩ hrest
      · simp only [mapSet, hid, if_false]
        exact List.Forall₂.cons ⟨rfl, hl0, hcn0⟩ (ih b1 hrest)

theorem regSim_ackTime (packet : BroadcastPacket) (a b : Registry) (h : RegSim a b)
    (id : String) : ackTime packet a id = ackTime packet b id := by
  unfold ackTime
  rcases regSim_get a b h id with ⟨ha, hb⟩ | ⟨c, d, ha, hb, hl, hcn⟩
  · rw [ha, hb]
  · rw [ha, hb]
    simp only [hl, hcn]

theorem regSim_tick (lib : Lib) (packet : BroadcastPacket) (order : List String)
    (a b : Registry) (h : RegSim a b) (result : broadcastResult) :
    tick lib packet order a result = tick lib packet order b result := by
  have hbody : tickBody lib packet a = tickBody lib packet b := by
    funext r id
    rw [tickBody_eq, tickBody_eq, regSim_ackTime packet a b h id]
  unfold tick
  rw [hbody]

theorem regSim_handleReport (lib : Lib) (a b : Registry) (h : RegSim a b)
    (r1 r2 : BroadcastReport) (hid : r1.ClientID = r2.ClientID)
    (hts : r1.Timestamp = r2.Timestamp) :
    RegSim (handleReport lib (some r1) a).2 (handleReport lib (some r2) b).2 := by
  rcases regSim_get a b h r1.ClientID with ⟨ha, hb⟩ | ⟨c, d, ha, hb, _, hcn⟩
  · rw [handleReport_unknown lib r1 a ha, handleReport_unknown lib r2 b (hid ▸ hb)]
    exact h
  · rw [handleReport_known lib r1 a c ha, handleReport_known lib r2 b d (hid ▸ hb), ← hid]
    exact regSim_mapSet a b h _ _ _ hts hcn

theorem regSim_serve (lib : Lib) (a b : Registry) (h : RegSim a b) (e1 e2 : Event)
    (he : e1.forgetPacketID = e2.forgetPacketID) :
    RegSim (serve lib a e1) (serve lib b e2) := by
  cases e1 with
  | tick o1 =>
    cases e2 with
    | tick o2 => exact h
    | register b2 n2 => simp [Event.forgetPacketID] at he
    | report b2 => cases b2 <;> simp [Event.forgetPacketID] at he
  | register b1 n1 =>
    cases e2 with
    | tick o2 => simp [Event.forgetPacketID] at he
    | register b2 n2 =>
      simp only [Event.forgetPacketID, Event.register.injEq] at he
      obtain ⟨hb, hn⟩ := he
      subst hb
      subst hn
      cases b1 with
      | none => exact h
      | some c => exact regSim_mapSet a b h _ _ _ rfl rfl
    | report b2 => cases b2 <;> simp [Event.forgetPacketID] at he
  | report b1 =>
    cases b1 with
    | none =>
      cases e2 with
      | tick o2 => simp [Event.forgetPacketID] at he
      | register b2 n2 => simp [Event.forgetPacketID] at he
      | report b2 =>
        cases b2 with
        | none => exact h
        | some r2 => simp [Event.forgetPacketID] at he
    | some r1 =>
      cases e2 with
      | tick o2 => simp [Event.forgetPacketID] at he
      | register b2 n2 => simp [Event.forgetPacketID] at he
      | report b2 =>
        cases b2 with
        | none => simp [Event.forgetPacketID] at he
        | some r2 =>
          simp only [Event.forgetPacketID, Event.report.injEq, Option.some.injEq,
            BroadcastReport.mk.injEq, and_true, true_and] at he
          exact regSim_handleReport lib a b h r1 r2 he.1 he.2

theorem regSim_step (lib : Lib) (packet : BroadcastPacket) (s1 s2 : RunState)
    (hres : s1.result = s2.result) (hreg : RegSim s1.clients s2.clients) (e1 e2 : Event)
    (he : e1.forgetPacketID = e2.forgetPacketID) :
    (step lib packet s1 e1).result = (step lib packet s2 e2).result ∧
    RegSim (step lib packet s1 e1).clients (step lib packet s2 e2).clients := by
  have hserve := regSim_serve lib s1.clients s2.clients hreg e1 e2 he
  have hclients : ∀ (s : RunState) (e : Event),
      (step lib packet s e).clients = serve lib s.clients e := by
    intro s e
    cases e <;> rfl
  rw [hclients, hclients]
  refine ⟨?_, hserve⟩
  cases e1 with
  | tick o1 =>
    cases e2 with
    | tick o2 =>
      simp only [Event.forgetPacketID, Event.tick.injEq] at he
      subst he
      show tick lib packet o1 s1.clients s1.result = tick lib packet o1 s2.clients s2.result
      rw [hres]
      exact regSim_tick lib packet o1 _ _ hreg _
    | register b2 n2 => simp [Event.forgetPacketID] at he
    | report b2 => cases b2 <;> simp [Event.forgetPacketID] at he
  | register b1 n1 =>
    cases e2 with
    | tick o2 => simp [Event.forgetPacketID] at he
    | register b2 n2 => exact hres
    | report b2 => exact hres
  | report b1 =>
    cases e2 with
    | tick o2 => cases b1 <;> simp [Event.forgetPacketID] at he
    | register b2 n2 => exact hres
    | report b2 => exact hres

theorem regSim_runEvents (lib : Lib) (packet : BroadcastPacket) (events1 events2 : List Event)
    (he : events1.map Event.forgetPacketID = events2.map Event.forgetPacketID)
    (s1 s2 : RunState) (hres : s1.result = s2.result) (hreg : RegSim s1.clients s2.clients) :
    (runEvents lib packet s1 events1).result = (runEvents lib packet s2 events2).result := by
  unfold runEvents
  induction events1 generalizing events2 s1 s2 with
  | nil =>
    cases events2 with
    | nil => exact hres
    | cons e2 rest2 => simp at he
  | cons e1 rest1 ih =>
    cases events2 with
    | nil => simp at he
    | cons e2 rest2 =>
      simp only [List.map_cons, List.cons.injEq] at he
      obtain ⟨h1, h2⟩ := regSim_step lib packet s1 s2 hres hreg e1 e2 he.1
      rw [List.foldl_cons, List.foldl_cons]
      exact ih rest2 he.2 _ _ h1 h2

theorem received_after_report_tick (lib : Lib) (packet : BroadcastPacket)
    (timeout : Int) (snapOrder : List String) (pre mid : List Event)
    (report : BroadcastReport) (order : List String) (clients : Registry)
    (hnd : (mapKeys clients).Nodup) (hsnap : snapOrder.Perm (mapKeys clients))
    (hperm : order.Perm (mapKeys (registryAfter lib clients
      (pre ++ Event.report (some report) :: mid))))
    (hU : connectedAt clients report.ClientID = true)
    (hafter : report.Timestamp.After packet.Timestamp = true)
    (hmid : ∀ e ∈ mid, e.target ≠ some report.ClientID) :
    ∃ v, mapGet (stateAfter lib packet timeout snapOrder clients
      (pre ++ Event.report (some report) :: mid ++ [Event.tick order])).result.ReceivedBy
      report.ClientID = some v := by
  have hinv0 := stateAfter_inv lib packet timeout snapOrder clients pre hnd hsnap
  have hinv := stateAfter_inv lib packet timeout snapOrder clients
    (pre ++ Event.report (some report) :: mid) hnd hsnap
  obtain ⟨c, hc, hconn⟩ := (connectedAt_iff _ _).mp (hinv0.connected _ hU)
  rw [← stateAfter_clients lib packet timeout snapOrder clients] at hperm
  have hmem : report.ClientID ∈ order :=
    hperm.mem_iff.mpr (connectedAt_mem_keys _ _ (hinv.connected _ hU))
  have hrec : mapGet (stateAfter lib packet timeout snapOrder clients
      (pre ++ Event.report (some report) :: mid)).clients report.ClientID =
      some { c with
        LastSeen := report.Timestamp,
        Metadata := some (mapSet (c.Metadata.getD []) "last_packet_id"
          (lib.uuidString report.PacketID)) } := by
    rw [stateAfter_clients, registryAfter_append]
    show mapGet (registryAfter lib
      (serve lib (registryAfter lib clients pre) (Event.report (some report))) mid) _ = _
    rw [registryAfter_get_of_target_ne lib _ mid _ hmid]
    show mapGet (handleReport lib (some report) (registryAfter lib clients pre)).2 _ = _
    rw [← stateAfter_clients lib packet timeout snapOrder clients pre,
      handleReport_known lib report _ c hc, mapGet_mapSet_self]
  have hget := tick_get_connected lib packet order _
    (stateAfter lib packet timeout snapOrder clients
      (pre ++ Event.report (some report) :: mid)).result report.ClientID _ hrec hconn hmem
  rw [← stateAfter_tick] at hget
  simp only [hafter, if_true] at hget
  cases hr : mapGet (stateAfter lib packet timeout snapOrder clients
      (pre ++ Event.report (some report) :: mid)).result.ReceivedBy report.ClientID with
  | none =>
    rw [hr] at hget
    exact ⟨_, hget⟩
  | some v =>
    rw [hr] at hget
    exact ⟨_, hget⟩

/-! ## The claims -/

/-- C5: for every registry and every decoded acknowledgment report,
`handleReport` answers 404 "Client not registered" exactly when the registry
holds no record for `report.ClientID`, and whenever it answers 404 the
registry after the call is the registry before it. -/
theorem handleReport_not_registered (lib : Lib) (report : BroadcastReport)
    (clients : Registry) :
    ((handleReport lib (some report) clients).1 = HTTPStatus.StatusNotFound ↔
      mapGet clients report.ClientID = none) ∧
    ((handleReport lib (some report) clients).1 = HTTPStatus.StatusNotFound →
      (handleReport lib (some report) clients).2 = clients) := by
  cases h : mapGet clients report.ClientID with
  | none =>
    rw [handleReport_unknown lib report clients h]
    simp
  | some c =>
    rw [handleReport_known lib report clients c h]
    simp

/-- C6: when the registry holds a record `c` for `report.ClientID`,
`handleReport` answers 200 and the record afterwards has `LastSeen` equal to
`report.Timestamp` and `Metadata["last_packet_id"]` equal to the string form
of `report.PacketID`; its `ID`, `IP`, `Connected` and every other metadata key
are those of `c`; the records of all other ids and the keys of the registry
are unchanged. -/
theorem handleReport_frame (lib : Lib) (report : BroadcastReport) (clients : Registry)
    (c : Client) (h : mapGet clients report.ClientID = some c) :
    (handleReport lib (some report) clients).1 = HTTPStatus.StatusOK ∧
    (∃ c1 : Client,
      mapGet (handleReport lib (some report) clients).2 report.ClientID = some c1 ∧
      c1.LastSeen = report.Timestamp ∧
      metadataGet c1 "last_packet_id" = some (lib.uuidString report.PacketID) ∧
      c1.ID = c.ID ∧ c1.IP = c.IP ∧ c1.Connected = c.Connected ∧
      ∀ key, key ≠ "last_packet_id" → metadataGet c1 key = metadataGet c key) ∧
    (∀ id, id ≠ report.ClientID →
      mapGet (handleReport lib (some report) clients).2 id = mapGet clients id) ∧
    mapKeys (handleReport lib (some report) clients).2 = mapKeys clients := by
  refine ⟨?_, ?_, ?_, handleReport_keys lib (some report) clients⟩
  · rw [handleReport_known lib report clients c h]
  · rw [handleReport_known lib report clients c h]
    refine ⟨_, mapGet_mapSet_self _ _ _, rfl, ?_, rfl, rfl, rfl, ?_⟩
    · simp [metadataGet, mapGet_mapSet_self]
    · intro key hkey
      have hne : ¬ "last_packet_id" = key := fun e => hkey e.symm
      cases hm : c.Metadata with
      | none => simp [metadataGet, hm, mapGet_mapSet, hne, mapGet]
      | some m => simp [metadataGet, hm, mapGet_mapSet, hne]
  · intro id hid
    rw [handleReport_known lib report clients c h, mapGet_mapSet]
    have hne : ¬ report.ClientID = id := fun e => hid e.symm
    simp [hne]

/-- Witness of C6: a report of client `b` on the sample registry. -/
theorem handleReport_frame_witness :
    mapGet sampleRegistry "b" = some clientB ∧
    (handleReport sampleLib
      (some { ClientID := "b", PacketID := { val := 7 }, Timestamp := sampleTime 12 })
      sampleRegistry).1 = HTTPStatus.StatusOK :=
  ⟨by decide,
    (handleReport_frame sampleLib
      { ClientID := "b", PacketID := { val := 7 }, Timestamp := sampleTime 12 }
      sampleRegistry clientB (by decide)).1⟩

/-- C3: `TotalClients` of the returned result is the number of records with
`Connected = true` in the registry at the initial snapshot, whatever ticks,
registrations and reports follow during the run. -/
theorem totalClients_eq_countConnected (lib : Lib) (packet : BroadcastPacket)
    (timeout : Int) (snapOrder : List String) (events : List Event)
    (deadlineOrder : List String) (clients : Registry)
    (h : ValidRun lib packet timeout snapOrder events deadlineOrder clients) :
    (snapshot packet timeout snapOrder clients).2.TotalClients = countConnected clients ∧
    (handleBroadcast lib packet timeout snapOrder events deadlineOrder clients).TotalClients =
      countConnected clients := by
  refine ⟨snapshot_total packet timeout snapOrder clients h.1 h.2.1, ?_⟩
  rw [handleBroadcast_eq lib packet timeout snapOrder events deadlineOrder clients h]
  exact (runInv_of_validRun lib packet timeout snapOrder events deadlineOrder clients h).total

/-- Witness of C3: two connected clients, a third registers during the run. -/
theorem totalClients_eq_countConnected_witness :
    ValidRun sampleLib samplePacket 5 ["b", "a"]
      [Event.register (some clientZ) (sampleTime 11), Event.tick ["z", "a", "b"]]
      ["a", "b"] sampleRegistry ∧
    (handleBroadcast sampleLib samplePacket 5 ["b", "a"]
      [Event.register (some clientZ) (sampleTime 11), Event.tick ["z", "a", "b"]]
      ["a", "b"] sampleRegistry).TotalClients = 2 :=
  ⟨by unfold ValidRun; decide,
    (totalClients_eq_countConnected sampleLib samplePacket 5 ["b", "a"]
      [Event.register (some clientZ) (sampleTime 11), Event.tick ["z", "a", "b"]]
      ["a", "b"] sampleRegistry (by unfold ValidRun; decide)).2⟩

/-- C2: in the returned result an id is in `MissedBy` if and only if it was
connected at the initial snapshot and is not a key of `ReceivedBy`.  The same
holds when the wait starts (every connected id is in `MissedBy`, `ReceivedBy`
is empty) and after every prefix of the events, so an id leaves `MissedBy`
only by entering `ReceivedBy`. -/
theorem missedBy_iff_connected_not_received (lib : Lib) (packet : BroadcastPacket)
    (timeout : Int) (snapOrder : List String) (events : List Event)
    (deadlineOrder : List String) (clients : Registry)
    (h : ValidRun lib packet timeout snapOrder events deadlineOrder clients) (id : String) :
    (id ∈ (handleBroadcast lib packet timeout snapOrder events deadlineOrder clients).MissedBy ↔
      connectedAt clients id = true ∧
      id ∉ mapKeys
        (handleBroadcast lib packet timeout snapOrder events deadlineOrder clients).ReceivedBy) ∧
    (id ∈ (start packet timeout snapOrder clients).result.MissedBy ↔
      connectedAt clients id = true) ∧
    (start packet timeout snapOrder clients).result.ReceivedBy = [] ∧
    (∀ pre post, events = pre ++ post →
      (id ∈ (runEvents lib packet (start packet timeout snapOrder clients) pre).result.MissedBy ↔
        connectedAt clients id = true ∧
        id ∉ mapKeys
          (runEvents lib packet (start packet timeout snapOrder clients) pre).result.ReceivedBy)) := by
  refine ⟨?_, ?_, ?_, ?_⟩
  · rw [handleBroadcast_eq lib packet timeout snapOrder events deadlineOrder clients h,
      not_mem_mapKeys_iff]
    exact (runInv_of_validRun lib packet timeout snapOrder events deadlineOrder
      clients h).tracked.2 id
  · exact mem_snapshot_missed packet timeout snapOrder clients h.2.1 id
  · show (snapshot packet timeout snapOrder clients).2.ReceivedBy = []
    rw [snapshot_result]
  · intro pre post _
    rw [not_mem_mapKeys_iff]
    exact (runInv_runEvents lib packet clients _ pre
      (runInv_start lib packet timeout snapOrder clients h.1 h.2.1)).tracked.2 id

/-- Witness of C2: client `a` reports at instant 12 and is recorded by the
tick; client `b` stays in `MissedBy`. -/
theorem missedBy_iff_connected_not_received_witness :
    ValidRun sampleLib samplePacket 5 ["a", "b"]
      [Event.report (some { ClientID := "a", PacketID := { val := 1 }, Timestamp := sampleTime 12 }),
        Event.tick ["b", "a"]]
      ["b", "a"] sampleRegistry ∧
    ("b" ∈ (handleBroadcast sampleLib samplePacket 5 ["a", "b"]
      [Event.report (some { ClientID := "a", PacketID := { val := 1 }, Timestamp := sampleTime 12 }),
        Event.tick ["b", "a"]]
      ["b", "a"] sampleRegistry).MissedBy ↔
      connectedAt sampleRegistry "b" = true ∧
      "b" ∉ mapKeys (handleBroadcast sampleLib samplePacket 5 ["a", "b"]
        [Event.report (some { ClientID := "a", PacketID := { val := 1 }, Timestamp := sampleTime 12 }),
          Event.tick ["b", "a"]]
        ["b", "a"] sampleRegistry).ReceivedBy) :=
  ⟨by unfold ValidRun; decide,
    (missedBy_iff_connected_not_received sampleLib samplePacket 5 ["a", "b"]
      [Event.report (some { ClientID := "a", PacketID := { val := 1 }, Timestamp := sampleTime 12 }),
        Event.tick ["b", "a"]]
      ["b", "a"] sampleRegistry (by unfold ValidRun; decide) "b").1⟩

/-- C1, the code at the failing input: two clients are connected at the
snapshot, a third one registers during the wait, and the next tick records it
in `ReceivedBy` although it is outside the universe of the run; `MissedBy`
and `TotalClients` still account for the two clients of the snapshot only. -/
theorem late_registrant_counted_as_received :
    ValidRun sampleLib samplePacket 5 ["a", "b"]
      [Event.register (some clientZ) (sampleTime 11), Event.tick ["a", "b", "z"]]
      ["a", "b"] sampleRegistry ∧
    connectedAt sampleRegistry "z" = false ∧
    handleBroadcast sampleLib samplePacket 5 ["a", "b"]
      [Event.register (some clientZ) (sampleTime 11), Event.tick ["a", "b", "z"]]
      ["a", "b"] sampleRegistry =
      { PacketID := { val := 1 }, SentAt := sampleTime 10, ReceivedBy := [("z", "11")],
        MissedBy := ["a", "b"], TotalClients := 2, Timeout := 5 } := by
  refine ⟨by unfold ValidRun; decide, by decide, by decide⟩

/-- C9, counterexample: with two connected clients and no acknowledgment, the
list handed to the deduplication at the deadline holds every id twice, and the
deduplication changes it. -/
theorem dedup_input_has_duplicates :
    ValidRun sampleLib samplePacket 5 ["a", "b"] [Event.tick ["a", "b"]] ["b", "a"]
      sampleRegistry ∧
    (deadlineAppend ["b", "a"]
      (runEvents sampleLib samplePacket (start samplePacket 5 ["a", "b"] sampleRegistry)
        [Event.tick ["a", "b"]]).result).MissedBy = ["a", "b", "b", "a"] ∧
    ¬ (deadlineAppend ["b", "a"]
      (runEvents sampleLib samplePacket (start samplePacket 5 ["a", "b"] sampleRegistry)
        [Event.tick ["a", "b"]]).result).MissedBy.Nodup ∧
    (handleBroadcast sampleLib samplePacket 5 ["a", "b"] [Event.tick ["a", "b"]] ["b", "a"]
      sampleRegistry).MissedBy = ["a", "b"] := by
  refine ⟨by unfold ValidRun; decide, by decide, by decide, by decide⟩

/-- C9, amended: the `MissedBy` of the returned result has no duplicates.  The
list the deadline step hands to the deduplication is the list `MissedBy` had
when the deadline fired, which has no duplicates, followed by the same ids a
second time (in the order of `range connectedClients`); the deduplication
returns the first copy. -/
theorem missedBy_nodup (lib : Lib) (packet : BroadcastPacket)
    (timeout : Int) (snapOrder : List String) (events : List Event)
    (deadlineOrder : List String) (clients : Registry)
    (h : ValidRun lib packet timeout snapOrder events deadlineOrder clients) :
    (handleBroadcast lib packet timeout snapOrder events deadlineOrder clients).MissedBy.Nodup ∧
    (runEvents lib packet (start packet timeout snapOrder clients) events).result.MissedBy.Nodup ∧
    (∃ again : List String,
      again.Perm
        (runEvents lib packet (start packet timeout snapOrder clients) events).result.MissedBy ∧
      (deadlineAppend deadlineOrder
        (runEvents lib packet (start packet timeout snapOrder clients) events).result).MissedBy =
        (runEvents lib packet (start packet timeout snapOrder clients) events).result.MissedBy
          ++ again) ∧
    (handleBroadcast lib packet timeout snapOrder events deadlineOrder clients).MissedBy =
      (runEvents lib packet (start packet timeout snapOrder clients) events).result.MissedBy := by
  have hinv := runInv_of_validRun lib packet timeout snapOrder events deadlineOrder clients h
  have heq := handleBroadcast_eq lib packet timeout snapOrder events deadlineOrder clients h
  have hond : snapOrder.Nodup := h.2.1.nodup_iff.mpr h.1
  have hdnd : deadlineOrder.Nodup := by
    apply h.2.2.2.nodup_iff.mpr
    rw [snapshot_keys packet timeout snapOrder clients hond]
    exact hond.filter _
  refine ⟨?_, hinv.tracked.1, ?_, ?_⟩
  · rw [heq]
    exact hinv.tracked.1
  · refine ⟨_, ?_, congrArg broadcastResult.MissedBy (deadlineAppend_eq deadlineOrder _)⟩
    apply (List.perm_ext_iff_of_nodup (hdnd.filter _) hinv.tracked.1).mpr
    intro x
    simp only [List.mem_filter, decide_eq_true_eq]
    rw [hinv.tracked.2 x]
    constructor
    · intro hx
      exact ⟨deadlineOrder_connected lib packet timeout snapOrder events deadlineOrder
        clients h x hx.1, hx.2⟩
    · intro hx
      refine ⟨?_, hx.2⟩
      apply h.2.2.2.mem_iff.mpr
      rw [snapshot_keys packet timeout snapOrder clients hond]
      exact List.mem_filter.mpr ⟨h.2.1.mem_iff.mpr (connectedAt_mem_keys clients x hx.1), hx.1⟩
  · rw [heq]

/-- Witness of C9 (amended): the run of the counterexample. -/
theorem missedBy_nodup_witness :
    ValidRun sampleLib samplePacket 5 ["a", "b"] [Event.tick ["a", "b"]] ["b", "a"]
      sampleRegistry ∧
    (handleBroadcast sampleLib samplePacket 5 ["a", "b"] [Event.tick ["a", "b"]] ["b", "a"]
      sampleRegistry).MissedBy.Nodup :=
  ⟨by unfold ValidRun; decide,
    (missedBy_nodup sampleLib samplePacket 5 ["a", "b"] [Event.tick ["a", "b"]] ["b", "a"]
      sampleRegistry (by unfold ValidRun; decide)).1⟩

/-- C10: for a sampling tick of a run and an id connected at the initial
snapshot.  After the tick the id is a key of `ReceivedBy` if and only if it
was one before the tick or its record at the tick has `LastSeen` strictly
after the packet's `Timestamp`; a `LastSeen` at the same instant as the
`Timestamp` does not add it.  When the tick newly adds the id, the value
recorded is the RFC3339 formatting of that record's `LastSeen` and the id
leaves `MissedBy`; an id already in `ReceivedBy` keeps its value through this
tick and whatever events follow; an id that is not in `ReceivedBy` after the
tick is in `MissedBy`. -/
theorem tick_receivedBy_iff (lib : Lib) (packet : BroadcastPacket)
    (timeout : Int) (snapOrder : List String) (events : List Event) (order : List String)
    (deadlineOrder : List String) (clients : Registry)
    (h : ValidRun lib packet timeout snapOrder (events ++ [Event.tick order]) deadlineOrder
      clients)
    (id : String) (hU : connectedAt clients id = true) :
    (id ∈ mapKeys (stateAfter lib packet timeout snapOrder clients
        (events ++ [Event.tick order])).result.ReceivedBy ↔
      (id ∈ mapKeys (stateAfter lib packet timeout snapOrder clients events).result.ReceivedBy ∨
        ∃ c, mapGet (stateAfter lib packet timeout snapOrder clients events).clients id = some c ∧
          c.LastSeen.After packet.Timestamp = true)) ∧
    (∀ c, mapGet (stateAfter lib packet timeout snapOrder clients events).clients id = some c →
      c.LastSeen.unixNano = packet.Timestamp.unixNano →
      id ∉ mapKeys (stateAfter lib packet timeout snapOrder clients events).result.ReceivedBy →
      id ∉ mapKeys (stateAfter lib packet timeout snapOrder clients
        (events ++ [Event.tick order])).result.ReceivedBy) ∧
    (∀ c, mapGet (stateAfter lib packet timeout snapOrder clients events).clients id = some c →
      c.LastSeen.After packet.Timestamp = true →
      id ∉ mapKeys (stateAfter lib packet timeout snapOrder clients events).result.ReceivedBy →
      mapGet (stateAfter lib packet timeout snapOrder clients
          (events ++ [Event.tick order])).result.ReceivedBy id =
        some (lib.formatRFC3339 c.LastSeen) ∧
      id ∈ (stateAfter lib packet timeout snapOrder clients events).result.MissedBy ∧
      id ∉ (stateAfter lib packet timeout snapOrder clients
        (events ++ [Event.tick order])).result.MissedBy) ∧
    (∀ v, mapGet (stateAfter lib packet timeout snapOrder clients events).result.ReceivedBy id =
        some v →
      ∀ later, mapGet (stateAfter lib packet timeout snapOrder clients
        (events ++ Event.tick order :: later)).result.ReceivedBy id = some v) ∧
    (id ∉ mapKeys (stateAfter lib packet timeout snapOrder clients
        (events ++ [Event.tick order])).result.ReceivedBy →
      id ∈ (stateAfter lib packet timeout snapOrder clients
        (events ++ [Event.tick order])).result.MissedBy) := by
  have hinv := stateAfter_inv lib packet timeout snapOrder clients events h.1 h.2.1
  have hinv1 := stateAfter_inv lib packet timeout snapOrder clients
    (events ++ [Event.tick order]) h.1 h.2.1
  have hperm := tick_order_perm lib clients events order [] h.2.2.1
  rw [← stateAfter_clients lib packet timeout snapOrder clients events] at hperm
  obtain ⟨c0, hc0, hconn0⟩ := (connectedAt_iff _ id).mp (hinv.connected id hU)
  have hmem : id ∈ order :=
    hperm.mem_iff.mpr (connectedAt_mem_keys _ id (hinv.connected id hU))
  have hget := tick_get_connected lib packet order
    (stateAfter lib packet timeout snapOrder clients events).clients
    (stateAfter lib packet timeout snapOrder clients events).result id c0 hc0 hconn0 hmem
  rw [← stateAfter_tick] at hget
  refine ⟨?_, ?_, ?_, ?_, ?_⟩
  · rw [mem_mapKeys_iff, mem_mapKeys_iff, hget]
    cases hr : mapGet (stateAfter lib packet timeout snapOrder clients events).result.ReceivedBy
      id with
    | some v => simp
    | none =>
      by_cases ha : c0.LastSeen.After packet.Timestamp = true
      · simp [ha, hc0]
      · simp [ha, hc0]
  · intro c hc heq hnot
    rw [hc0] at hc
    cases hc
    rw [not_mem_mapKeys_iff] at hnot ⊢
    have ha : ¬ c0.LastSeen.After packet.Timestamp = true := by
      simp [Time.After, heq]
    rw [hget, hnot]
    simp [ha]
  · intro c hc ha hnot
    rw [hc0] at hc
    cases hc
    rw [not_mem_mapKeys_iff] at hnot
    have hnew : mapGet (stateAfter lib packet timeout snapOrder clients
        (events ++ [Event.tick order])).result.ReceivedBy id =
        some (lib.formatRFC3339 c0.LastSeen) := by
      rw [hget, hnot]
      simp [ha]
    refine ⟨hnew, (hinv.tracked.2 id).mpr ⟨hU, hnot⟩, ?_⟩
    intro hin
    have := ((hinv1.tracked.2 id).mp hin).2
    rw [hnew] at this
    cases this
  · intro v hv later
    exact stateAfter_persist lib packet timeout snapOrder clients events
      (Event.tick order :: later) id v hv
  · intro hnot
    rw [not_mem_mapKeys_iff] at hnot
    exact (hinv1.tracked.2 id).mpr ⟨hU, hnot⟩

/-- Witness of C10: client `a` reports at instant 12, client `b` does not;
the tick adds `a` and leaves `b` in `MissedBy`. -/
theorem tick_receivedBy_iff_witness :
    ValidRun sampleLib samplePacket 5 ["a", "b"]
      ([Event.report
        (some { ClientID := "a", PacketID := { val := 1 }, Timestamp := sampleTime 12 })] ++
        [Event.tick ["b", "a"]])
      ["b", "a"] sampleRegistry ∧
    connectedAt sampleRegistry "b" = true ∧
    ("b" ∉ mapKeys (stateAfter sampleLib samplePacket 5 ["a", "b"] sampleRegistry
        ([Event.report
          (some { ClientID := "a", PacketID := { val := 1 }, Timestamp := sampleTime 12 })] ++
          [Event.tick ["b", "a"]])).result.ReceivedBy →
      "b" ∈ (stateAfter sampleLib samplePacket 5 ["a", "b"] sampleRegistry
        ([Event.report
          (some { ClientID := "a", PacketID := { val := 1 }, Timestamp := sampleTime 12 })] ++
          [Event.tick ["b", "a"]])).result.MissedBy) :=
  ⟨by unfold ValidRun; decide, by decide,
    (tick_receivedBy_iff sampleLib samplePacket 5 ["a", "b"]
      [Event.report
        (some { ClientID := "a", PacketID := { val := 1 }, Timestamp := sampleTime 12 })]
      ["b", "a"] ["b", "a"] sampleRegistry (by unfold ValidRun; decide) "b"
      (by decide)).2.2.2.2⟩

/-- C4, counterexample: the packet is sent at instant 10 with a timeout of 5.
Client `a`, connected at the snapshot, reports the packet with the `Timestamp`
9 of its own clock; the report is accepted, and after the next tick `a` is
not a key of `ReceivedBy` and is returned in `MissedBy`.  Client `b` reports
with the `Timestamp` 1000; the time recorded for it is 1000, after the
deadline 15. -/
theorem report_timestamp_decides :
    ValidRun sampleLib samplePacket 5 ["a", "b"]
      [Event.report (some { ClientID := "a", PacketID := { val := 1 }, Timestamp := sampleTime 9 }),
        Event.report
          (some { ClientID := "b", PacketID := { val := 1 }, Timestamp := sampleTime 1000 }),
        Event.tick ["a", "b"]]
      ["a", "b"] sampleRegistry ∧
    connectedAt sampleRegistry "a" = true ∧
    (handleReport sampleLib
      (some { ClientID := "a", PacketID := { val := 1 }, Timestamp := sampleTime 9 })
      sampleRegistry).1 = HTTPStatus.StatusOK ∧
    "a" ∉ mapKeys (stateAfter sampleLib samplePacket 5 ["a", "b"] sampleRegistry
      [Event.report (some { ClientID := "a", PacketID := { val := 1 }, Timestamp := sampleTime 9 }),
        Event.report
          (some { ClientID := "b", PacketID := { val := 1 }, Timestamp := sampleTime 1000 }),
        Event.tick ["a", "b"]]).result.ReceivedBy ∧
    handleBroadcast sampleLib samplePacket 5 ["a", "b"]
      [Event.report (some { ClientID := "a", PacketID := { val := 1 }, Timestamp := sampleTime 9 }),
        Event.report
          (some { ClientID := "b", PacketID := { val := 1 }, Timestamp := sampleTime 1000 }),
        Event.tick ["a", "b"]]
      ["a", "b"] sampleRegistry =
      { PacketID := { val := 1 }, SentAt := sampleTime 10,
        ReceivedBy := [("b", sampleLib.formatRFC3339 (sampleTime 1000))],
        MissedBy := ["a"], TotalClients := 2, Timeout := 5 } := by
  refine ⟨by unfold ValidRun; decide, by decide, by decide, by decide, by decide⟩

/-- C4, amended: for a client connected at the initial snapshot, if
`handleReport` serves a report of that client whose `Timestamp` is strictly
after the packet's `Timestamp`, and no registration or report of that client
is served between it and a later tick, then the report is accepted and after
that tick the id is a key of `ReceivedBy`.  The value recorded is the RFC3339
formatting of a time strictly after the packet's `Timestamp`, and it is the
formatting of the report's `Timestamp` when this tick adds the id. -/
theorem report_acknowledged_at_tick (lib : Lib) (packet : BroadcastPacket)
    (timeout : Int) (snapOrder : List String) (pre mid : List Event)
    (report : BroadcastReport) (order : List String)
    (deadlineOrder : List String) (clients : Registry)
    (h : ValidRun lib packet timeout snapOrder
      (pre ++ Event.report (some report) :: mid ++ [Event.tick order]) deadlineOrder clients)
    (hU : connectedAt clients report.ClientID = true)
    (hafter : report.Timestamp.After packet.Timestamp = true)
    (hmid : ∀ e ∈ mid, e.target ≠ some report.ClientID) :
    (handleReport lib (some report)
      (stateAfter lib packet timeout snapOrder clients pre).clients).1 = HTTPStatus.StatusOK ∧
    report.ClientID ∈ mapKeys (stateAfter lib packet timeout snapOrder clients
      (pre ++ Event.report (some report) :: mid ++ [Event.tick order])).result.ReceivedBy ∧
    (∃ t : Time, t.After packet.Timestamp = true ∧
      mapGet (stateAfter lib packet timeout snapOrder clients
        (pre ++ Event.report (some report) :: mid ++ [Event.tick order])).result.ReceivedBy
        report.ClientID = some (lib.formatRFC3339 t)) ∧
    (report.ClientID ∉ mapKeys (stateAfter lib packet timeout snapOrder clients
        (pre ++ Event.report (some report) :: mid)).result.ReceivedBy →
      mapGet (stateAfter lib packet timeout snapOrder clients
        (pre ++ Event.report (some report) :: mid ++ [Event.tick order])).result.ReceivedBy
        report.ClientID = some (lib.formatRFC3339 report.Timestamp)) := by
  have hinv0 := stateAfter_inv lib packet timeout snapOrder clients pre h.1 h.2.1
  have hinv := stateAfter_inv lib packet timeout snapOrder clients
    (pre ++ Event.report (some report) :: mid) h.1 h.2.1
  obtain ⟨c, hc, hconn⟩ := (connectedAt_iff _ _).mp (hinv0.connected _ hU)
  have hperm := tick_order_perm lib clients (pre ++ Event.report (some report) :: mid)
    order [] h.2.2.1
  rw [← stateAfter_clients lib packet timeout snapOrder clients] at hperm
  have hmem : report.ClientID ∈ order :=
    hperm.mem_iff.mpr (connectedAt_mem_keys _ _ (hinv.connected _ hU))
  have hrec : mapGet (stateAfter lib packet timeout snapOrder clients
      (pre ++ Event.report (some report) :: mid)).clients report.ClientID =
      some { c with
        LastSeen := report.Timestamp,
        Metadata := some (mapSet (c.Metadata.getD []) "last_packet_id"
          (lib.uuidString report.PacketID)) } := by
    rw [stateAfter_clients, registryAfter_append]
    show mapGet (registryAfter lib
      (serve lib (registryAfter lib clients pre) (Event.report (some report))) mid) _ = _
    rw [registryAfter_get_of_target_ne lib _ mid _ hmid]
    show mapGet (handleReport lib (some report) (registryAfter lib clients pre)).2 _ = _
    rw [← stateAfter_clients lib packet timeout snapOrder clients pre,
      handleReport_known lib report _ c hc, mapGet_mapSet_self]
  have hget := tick_get_connected lib packet order _
    (stateAfter lib packet timeout snapOrder clients
      (pre ++ Event.report (some report) :: mid)).result report.ClientID _ hrec hconn hmem
  rw [← stateAfter_tick] at hget
  simp only [hafter, if_true] at hget
  refine ⟨?_, ?_, ?_, ?_⟩
  · rw [handleReport_known lib report _ c hc]
  · rw [mem_mapKeys_iff, hget]
    cases hr : mapGet (stateAfter lib packet timeout snapOrder clients
        (pre ++ Event.report (some report) :: mid)).result.ReceivedBy report.ClientID with
    | none => simp
    | some v => simp
  · cases hr : mapGet (stateAfter lib packet timeout snapOrder clients
        (pre ++ Event.report (some report) :: mid)).result.ReceivedBy report.ClientID with
    | none =>
      rw [hr] at hget
      exact ⟨report.Timestamp, hafter, hget⟩
    | some v =>
      rw [hr] at hget
      obtain ⟨t, ht, hv⟩ := hinv.stamped _ v hr
      exact ⟨t, ht, by rw [hget, hv]⟩
  · intro hnot
    rw [not_mem_mapKeys_iff] at hnot
    rw [hget, hnot]

/-- Witness of C4 (amended): client `a` reports at instant 12, client `b`
registers again, then the tick. -/
theorem report_acknowledged_at_tick_witness :
    ValidRun sampleLib samplePacket 5 ["a", "b"]
      ([] ++ Event.report
          (some { ClientID := "a", PacketID := { val := 1 }, Timestamp := sampleTime 12 }) ::
        [Event.register (some clientB) (sampleTime 13)] ++ [Event.tick ["b", "a"]])
      ["b", "a"] sampleRegistry ∧
    "a" ∈ mapKeys (stateAfter sampleLib samplePacket 5 ["a", "b"] sampleRegistry
      ([] ++ Event.report
          (some { ClientID := "a", PacketID := { val := 1 }, Timestamp := sampleTime 12 }) ::
        [Event.register (some clientB) (sampleTime 13)] ++
        [Event.tick ["b", "a"]])).result.ReceivedBy :=
  ⟨by unfold ValidRun; decide,
    (report_acknowledged_at_tick sampleLib samplePacket 5 ["a", "b"] []
      [Event.register (some clientB) (sampleTime 13)]
      { ClientID := "a", PacketID := { val := 1 }, Timestamp := sampleTime 12 }
      ["b", "a"] ["b", "a"] sampleRegistry (by unfold ValidRun; decide) (by decide)
      (by decide) (by decide)).2.1⟩

/-- C7, counterexample: on an empty registry client `a` registers at instant
4, then reports with the `Timestamp` 12, then client `b` registers.  The
record the registry holds for `a` afterwards is not the one of its last
registration: its `LastSeen` is 12 and its `Metadata` holds the packet id of
the report. -/
theorem report_after_register_changes_record :
    mapGet (registryAfter sampleLib []
      [Event.register (some clientA) (sampleTime 4),
        Event.report
          (some { ClientID := "a", PacketID := { val := 1 }, Timestamp := sampleTime 12 }),
        Event.register (some clientB) (sampleTime 13)])
      "a" =
      some { ID := "a", IP := "10.0.0.1", LastSeen := sampleTime 12, Connected := true,
             Metadata := some [("last_packet_id", "1")] } ∧
    mapGet (registryAfter sampleLib []
      [Event.register (some clientA) (sampleTime 4),
        Event.report
          (some { ClientID := "a", PacketID := { val := 1 }, Timestamp := sampleTime 12 }),
        Event.register (some clientB) (sampleTime 13)])
      "a" ≠
      some { ID := "a", IP := "10.0.0.1", LastSeen := sampleTime 4, Connected := true,
             Metadata := none } := by
  refine ⟨by decide, by decide⟩

/-- C7, amended: for every starting registry and every sequence of handler
calls, if `handleRegister` is called with the record `c` at time `now` and no
later call registers or reports for `c.ID`, then the record the registry holds
for `c.ID` afterwards is `c` with `Connected = true` and `LastSeen = now`,
whatever was registered or reported before.  Registering the same record twice
in a row at the same instant gives the registry of registering it once, and a
registration leaves the records of all other ids as they were. -/
theorem register_last_write_wins (lib : Lib) (clients : Registry) (pre post : List Event)
    (c : Client) (now : Time) (hpost : ∀ e ∈ post, e.target ≠ some c.ID) :
    mapGet (registryAfter lib clients (pre ++ Event.register (some c) now :: post)) c.ID =
      some { c with LastSeen := now, Connected := true } ∧
    (handleRegister (some c) now (handleRegister (some c) now clients).2).2 =
      (handleRegister (some c) now clients).2 ∧
    (∀ id, id ≠ c.ID →
      mapGet (handleRegister (some c) now clients).2 id = mapGet clients id) := by
  refine ⟨?_, ?_, ?_⟩
  · rw [registryAfter_append]
    show mapGet (registryAfter lib
      (serve lib (registryAfter lib clients pre) (Event.register (some c) now)) post) _ = _
    rw [registryAfter_get_of_target_ne lib _ post _ hpost]
    show mapGet (handleRegister (some c) now (registryAfter lib clients pre)).2 c.ID = _
    rw [handleRegister_get]
    simp
  · simp [handleRegister, mapSet_mapSet_self]
  · intro id hid
    rw [handleRegister_get]
    have hne : ¬ c.ID = id := fun e => hid e.symm
    simp [hne]

/-- Witness of C7 (amended): `b` registers, reports, and registers again with
another address while `a` reports afterwards. -/
theorem register_last_write_wins_witness :
    (∀ e ∈ [Event.report
        (some { ClientID := "a", PacketID := { val := 1 }, Timestamp := sampleTime 12 })],
      e.target ≠ some "b") ∧
    mapGet (registryAfter sampleLib sampleRegistry
      ([Event.report
          (some { ClientID := "b", PacketID := { val := 1 }, Timestamp := sampleTime 11 })] ++
        Event.register (some { clientB with IP := "10.0.0.3", Metadata := none })
          (sampleTime 13) ::
        [Event.report
          (some { ClientID := "a", PacketID := { val := 1 }, Timestamp := sampleTime 12 })]))
      "b" =
      some { ID := "b", IP := "10.0.0.3", LastSeen := sampleTime 13, Connected := true,
             Metadata := none } :=
  ⟨by decide,
    (register_last_write_wins sampleLib sampleRegistry
      [Event.report
        (some { ClientID := "b", PacketID := { val := 1 }, Timestamp := sampleTime 11 })]
      [Event.report
        (some { ClientID := "a", PacketID := { val := 1 }, Timestamp := sampleTime 12 })]
      { clientB with IP := "10.0.0.3", Metadata := none } (sampleTime 13) (by decide)).1⟩

/-- C8, counterexample: the packet is sent at instant 10; after the only tick
of the wait, client `a`, connected at the snapshot, reports packet 99 (not
the current packet 1) with the `Timestamp` 12 and is answered 200; the
deadline fires before another tick.  Client `a` is not a key of the returned
`ReceivedBy`. -/
theorem report_after_last_tick_not_counted :
    ValidRun sampleLib samplePacket 5 ["a", "b"]
      [Event.tick ["a", "b"],
        Event.report
          (some { ClientID := "a", PacketID := { val := 99 }, Timestamp := sampleTime 12 })]
      ["a", "b"] sampleRegistry ∧
    connectedAt sampleRegistry "a" = true ∧
    ({ val := 99 } : UUID) ≠ samplePacket.ID ∧
    (sampleTime 12).After samplePacket.Timestamp = true ∧
    (handleReport sampleLib
      (some { ClientID := "a", PacketID := { val := 99 }, Timestamp := sampleTime 12 })
      (stateAfter sampleLib samplePacket 5 ["a", "b"] sampleRegistry
        [Event.tick ["a", "b"]]).clients).1 = HTTPStatus.StatusOK ∧
    "a" ∉ mapKeys (handleBroadcast sampleLib samplePacket 5 ["a", "b"]
      [Event.tick ["a", "b"],
        Event.report
          (some { ClientID := "a", PacketID := { val := 99 }, Timestamp := sampleTime 12 })]
      ["a", "b"] sampleRegistry).ReceivedBy ∧
    handleBroadcast sampleLib samplePacket 5 ["a", "b"]
      [Event.tick ["a", "b"],
        Event.report
          (some { ClientID := "a", PacketID := { val := 99 }, Timestamp := sampleTime 12 })]
      ["a", "b"] sampleRegistry =
      { PacketID := { val := 1 }, SentAt := sampleTime 10, ReceivedBy := [],
        MissedBy := ["a", "b"], TotalClients := 2, Timeout := 5 } := by
  refine ⟨by unfold ValidRun; decide, by decide, by decide, by decide, by decide, by decide,
    by decide⟩

/-- C8, amended: two runs from the same registry and packet, with the same
orders of visit and the same events up to the `PacketID` carried by the
reports, return the same `ReceivedBy`, `MissedBy` and `TotalClients`.  In
particular, in a run where a client connected at the snapshot reports a
different packet with a `Timestamp` strictly after the current packet's
`Timestamp`, and a tick is served after that report with no registration or
report of that client in between, that client is a key of the returned
`ReceivedBy`. -/
theorem packetID_not_consulted (lib : Lib) (packet : BroadcastPacket)
    (timeout : Int) (snapOrder : List String) (events1 events2 : List Event)
    (deadlineOrder : List String) (clients : Registry)
    (hsame : events1.map Event.forgetPacketID = events2.map Event.forgetPacketID) :
    (handleBroadcast lib packet timeout snapOrder events1 deadlineOrder clients).ReceivedBy =
      (handleBroadcast lib packet timeout snapOrder events2 deadlineOrder clients).ReceivedBy ∧
    (handleBroadcast lib packet timeout snapOrder events1 deadlineOrder clients).MissedBy =
      (handleBroadcast lib packet timeout snapOrder events2 deadlineOrder clients).MissedBy ∧
    (handleBroadcast lib packet timeout snapOrder events1 deadlineOrder clients).TotalClients =
      (handleBroadcast lib packet timeout snapOrder events2 deadlineOrder clients).TotalClients ∧
    (∀ pre report mid order post,
      events1 = pre ++ Event.report (some report) :: mid ++ Event.tick order :: post →
      (∀ e ∈ mid, e.target ≠ some report.ClientID) →
      ValidRun lib packet timeout snapOrder events1 deadlineOrder clients →
      connectedAt clients report.ClientID = true →
      report.PacketID ≠ packet.ID →
      report.Timestamp.After packet.Timestamp = true →
      report.ClientID ∈ mapKeys
        (handleBroadcast lib packet timeout snapOrder events1 deadlineOrder clients).ReceivedBy) := by
  have heq : handleBroadcast lib packet timeout snapOrder events1 deadlineOrder clients =
      handleBroadcast lib packet timeout snapOrder events2 deadlineOrder clients := by
    unfold handleBroadcast
    rw [regSim_runEvents lib packet events1 events2 hsame _ _ rfl (regSim_refl _)]
  refine ⟨by rw [heq], by rw [heq], by rw [heq], ?_⟩
  intro pre report mid order post hev hmid hvalid hU _ hafter
  have hshape : pre ++ Event.report (some report) :: mid ++ Event.tick order :: post =
      (pre ++ Event.report (some report) :: mid ++ [Event.tick order]) ++ post := by simp
  have hv := hvalid.2.2.1
  rw [hev] at hv
  have hperm := tick_order_perm lib clients (pre ++ Event.report (some report) :: mid)
    order post hv
  obtain ⟨v, hv1⟩ := received_after_report_tick lib packet timeout snapOrder pre mid report
    order clients hvalid.1 hvalid.2.1 hperm hU hafter hmid
  have hv2 := stateAfter_persist lib packet timeout snapOrder clients _ post _ v hv1
  rw [handleBroadcast_eq lib packet timeout snapOrder events1 deadlineOrder clients hvalid,
    mem_mapKeys_iff, hev, hshape]
  unfold stateAfter at hv2
  rw [hv2]
  simp

/-- Witness of C8 (amended): client `a` acknowledges packet 1 in one run and
packet 99 in the other, client `b` registers again, then the tick; both runs
return the same `ReceivedBy`, and `a` is a key of it. -/
theorem packetID_not_consulted_witness :
    [Event.report (some { ClientID := "a", PacketID := { val := 99 }, Timestamp := sampleTime 12 }),
      Event.register (some clientB) (sampleTime 13),
      Event.tick ["a", "b"]].map Event.forgetPacketID =
    [Event.report (some { ClientID := "a", PacketID := { val := 1 }, Timestamp := sampleTime 12 }),
      Event.register (some clientB) (sampleTime 13),
      Event.tick ["a", "b"]].map Event.forgetPacketID ∧
    (handleBroadcast sampleLib samplePacket 5 ["a", "b"]
      [Event.report (some { ClientID := "a", PacketID := { val := 99 }, Timestamp := sampleTime 12 }),
        Event.register (some clientB) (sampleTime 13),
        Event.tick ["a", "b"]] ["a", "b"] sampleRegistry).ReceivedBy =
    (handleBroadcast sampleLib samplePacket 5 ["a", "b"]
      [Event.report (some { ClientID := "a", PacketID := { val := 1 }, Timestamp := sampleTime 12 }),
        Event.register (some clientB) (sampleTime 13),
        Event.tick ["a", "b"]] ["a", "b"] sampleRegistry).ReceivedBy ∧
    "a" ∈ mapKeys (handleBroadcast sampleLib samplePacket 5 ["a", "b"]
      [Event.report (some { ClientID := "a", PacketID := { val := 99 }, Timestamp := sampleTime 12 }),
        Event.register (some clientB) (sampleTime 13),
        Event.tick ["a", "b"]] ["a", "b"] sampleRegistry).ReceivedBy :=
  ⟨by decide,
    (packetID_not_consulted sampleLib samplePacket 5 ["a", "b"]
      [Event.report (some { ClientID := "a", PacketID := { val := 99 }, Timestamp := sampleTime 12 }),
        Event.register (some clientB) (sampleTime 13),
        Event.tick ["a", "b"]]
      [Event.report (some { ClientID := "a", PacketID := { val := 1 }, Timestamp := sampleTime 12 }),
        Event.register (some clientB) (sampleTime 13),
        Event.tick ["a", "b"]] ["a", "b"] sampleRegistry (by decide)).1,
    (packetID_not_consulted sampleLib samplePacket 5 ["a", "b"]
      [Event.report (some { ClientID := "a", PacketID := { val := 99 }, Timestamp := sampleTime 12 }),
        Event.register (some clientB) (sampleTime 13),
        Event.tick ["a", "b"]]
      [Event.report (some { ClientID := "a", PacketID := { val := 1 }, Timestamp := sampleTime 12 }),
        Event.register (some clientB) (sampleTime 13),
        Event.tick ["a", "b"]] ["a", "b"] sampleRegistry (by decide)).2.2.2 []
      { ClientID := "a", PacketID := { val := 99 }, Timestamp := sampleTime 12 }
      [Event.register (some clientB) (sampleTime 13)] ["a", "b"] [] (by decide) (by decide)
      (by unfold ValidRun; decide) (by decide) (by decide) (by decide)⟩

end BroadcastLogger
